import Mathlib

/-!
Verification of the tally classification core: the classification rule
engine (`classification_rules.py`), the section engine (`section_engine.py`),
the expression evaluator and the inline modifier grammar.  Numeric values of
the source (Python ints and floats) are embedded as rationals; Python dicts
with `.get` defaults are embedded as structures of `Option` fields.
-/

namespace Tally

/-- Python `int()` applied to a rational: truncation toward zero. -/
def pyInt (q : ℚ) : ℤ := if 0 ≤ q then ⌊q⌋ else ⌈q⌉

/-- Python whitespace class, used by `\s` and `str.strip`. -/
def pyIsSpace (c : Char) : Bool :=
  c = ' ' || c = '\t' || c = '\n' || c = '\r' || c = '\x0b' || c = '\x0c'

/-- Python `str.strip()` on a character list. -/
def pyStrip (l : List Char) : List Char :=
  ((l.dropWhile pyIsSpace).reverse.dropWhile pyIsSpace).reverse

/-- Python regex `\w` (ASCII relevant range): letters, digits, underscore. -/
def isWordChar (c : Char) : Bool := c.isAlphanum || c = '_'

/-- Natural number denoted by a digit list (most significant first). -/
def digitsToNat (l : List Char) : ℕ :=
  l.foldl (fun acc c => 10 * acc + (c.toNat - '0'.toNat)) 0

/-- Rational denoted by an integer digit part and a fractional digit part,
as Python `float()` reads `\d+\.?\d*` material (embedded exactly). -/
def ratOfDigits (intPart fracPart : List Char) : ℚ :=
  (digitsToNat intPart : ℚ) + (digitsToNat fracPart : ℚ) / (10 : ℚ) ^ fracPart.length

/-- Python `str.split('\n')` on a character list: split at every newline
(an empty input yields one empty line, as in Python). -/
def splitLinesGo (acc : List Char) : List Char → List (List Char)
  | [] => [acc.reverse]
  | c :: rest =>
    if c = '\n' then acc.reverse :: splitLinesGo [] rest
    else splitLinesGo (c :: acc) rest

/-- See `splitLinesGo`. -/
def splitLines (l : List Char) : List (List Char) := splitLinesGo [] l

deriving instance DecidableEq for Except

namespace Rules

/-- `NumericCondition` from `classification_rules.py`: a numeric condition such
as `[months>=6]`.  The source field `variable` is called `var` here because
`variable` is a Lean keyword. -/
structure NumericCondition where
  var : String
  operator : String
  value : ℚ
  is_percentage : Bool := false
deriving Repr, DecidableEq

/-- `FieldMatch`: a field equality match such as `category=Bills`. -/
structure FieldMatch where
  field : String
  value : String
deriving Repr, DecidableEq

/-- `ClassificationRule`: one parsed rule line. -/
structure ClassificationRule where
  line_number : ℕ
  raw_text : String
  field_matches : List FieldMatch
  conditions : List NumericCondition
  bucket : String
  calc_type : String
  is_default : Bool := false
deriving Repr, DecidableEq

/-- The merchant statistics dict consumed by the rule engine.  The source
reads it with `stats.get(key, default)`, so every key may be absent. -/
structure Stats where
  category : Option String := none
  subcategory : Option String := none
  months_active : Option ℚ := none
  count : Option ℚ := none
  total : Option ℚ := none
  cv : Option ℚ := none
  max_payment : Option ℚ := none
deriving Repr, DecidableEq

/-- `VALID_BUCKETS` from the source. -/
def VALID_BUCKETS : List String :=
  ["excluded", "travel", "annual", "periodic", "monthly", "one_off", "variable"]

/-- `VALID_CALC_TYPES` from the source. -/
def VALID_CALC_TYPES : List String := ["avg", "/12", "auto"]

/-- `VALID_VARIABLES` from the source. -/
def VALID_VARIABLES : List String :=
  ["months", "count", "total", "cv", "max", "avg", "max_avg_ratio"]

/-- The alternation `>=|<=|>|<|=` of the `MODIFIER` regex, tried in the
regex's order at the head of the input. -/
def matchCmpOp : List Char → Option (String × List Char)
  | '>' :: '=' :: r => some (">=", r)
  | '<' :: '=' :: r => some ("<=", r)
  | '>' :: r => some (">", r)
  | '<' :: r => some ("<", r)
  | '=' :: r => some ("=", r)
  | _ => none

/-- One match attempt of the `MODIFIER` regex
`\[(\w+)(>=|<=|>|<|=)(\d+\.?\d*)(%?)\]` anchored at the head of the input:
returns the captured (variable, operator, numeric value, percentage flag)
and the unconsumed suffix.  Greedy `\w+`/`\d+`/`\d*` need no backtracking
here because each following regex atom cannot start with a word/digit
character. -/
def matchModifierAt : List Char → Option ((String × String × ℚ × Bool) × List Char)
  | '[' :: r1 =>
    let w := r1.takeWhile isWordChar
    let r2 := r1.dropWhile isWordChar
    if w.isEmpty then none
    else
      match matchCmpOp r2 with
      | none => none
      | some (op, r3) =>
        let d1 := r3.takeWhile Char.isDigit
        let r4 := r3.dropWhile Char.isDigit
        if d1.isEmpty then none
        else
          let fr : List Char × List Char :=
            match r4 with
            | '.' :: r4' => (r4'.takeWhile Char.isDigit, r4'.dropWhile Char.isDigit)
            | _ => ([], r4)
          let pr : Bool × List Char :=
            match fr.2 with
            | '%' :: r5' => (true, r5')
            | _ => (false, fr.2)
          match pr.2 with
          | ']' :: r7 => some ((w.asString, op, ratOfDigits d1 fr.1, pr.1), r7)
          | _ => none
  | _ => none

/-- `MODIFIER.finditer` plus `MODIFIER.sub('', ...)` over the condition part
in one pass: the list of modifier matches in left-to-right order, and the
input with the matched spans removed.  At each position the regex is tried;
on failure the scan advances one character.  The fuel argument (initialised
to the input length, which the scan can never exhaust since every match
consumes at least one character) makes the recursion structural. -/
def scanModifiersGo (fuel : ℕ) (l : List Char) :
    List (String × String × ℚ × Bool) × List Char :=
  match fuel with
  | 0 => ([], l)
  | fuel + 1 =>
    match l with
    | [] => ([], [])
    | c :: rest =>
      match matchModifierAt (c :: rest) with
      | some (m, r) =>
        let p := scanModifiersGo fuel r
        (m :: p.1, p.2)
      | none =>
        let p := scanModifiersGo fuel rest
        (p.1, c :: p.2)

/-- See `scanModifiersGo`. -/
def scanModifiers (l : List Char) : List (String × String × ℚ × Bool) × List Char :=
  scanModifiersGo l.length l

/-- One match attempt of the `FIELD_MATCH` regex `(\w+)=([^,\[\]]+)` anchored
at the head of the input.  Backtracking of the greedy `\w+` never helps: a
shorter word prefix is followed by a word character, never by `=`. -/
def matchFieldAt (l : List Char) : Option ((String × String) × List Char) :=
  let w := l.takeWhile isWordChar
  let r2 := l.dropWhile isWordChar
  if w.isEmpty then none
  else
    match r2 with
    | '=' :: r3 =>
      let v := r3.takeWhile fun c => !(c = ',' || c = '[' || c = ']')
      let r4 := r3.dropWhile fun c => !(c = ',' || c = '[' || c = ']')
      if v.isEmpty then none else some ((w.asString, v.asString), r4)
    | _ => none

/-- `FIELD_MATCH.finditer` over the field part: fuel-structured scan exactly
like `scanModifiersGo` (every match consumes at least two characters). -/
def scanFieldsGo (fuel : ℕ) (l : List Char) : List (String × String) :=
  match fuel with
  | 0 => []
  | fuel + 1 =>
    match l with
    | [] => []
    | _ :: rest =>
      match matchFieldAt l with
      | some (fv, r) => fv :: scanFieldsGo fuel r
      | none => scanFieldsGo fuel rest

/-- See `scanFieldsGo`. -/
def scanFields (l : List Char) : List (String × String) :=
  scanFieldsGo l.length l

/-- The part of the `RULE_PATTERN` regex after the lazy group:
`\s*->\s*(\w+)\s*,\s*(\w+|/12)\s*$`, returning the captured bucket and
calc type.  The alternation `\w+|/12` tries the word branch first; when the
word branch captures at least one character the `/12` branch can never
apply (the input would have to start with both a word character and `/`). -/
def matchRuleTail (l : List Char) : Option (String × String) :=
  match l.dropWhile pyIsSpace with
  | '-' :: '>' :: r2 =>
    let r3 := r2.dropWhile pyIsSpace
    let w := r3.takeWhile isWordChar
    let r4 := r3.dropWhile isWordChar
    if w.isEmpty then none
    else
      match r4.dropWhile pyIsSpace with
      | ',' :: r6 =>
        let r7 := r6.dropWhile pyIsSpace
        let w2 := r7.takeWhile isWordChar
        let r8 := r7.dropWhile isWordChar
        if !w2.isEmpty then
          if (r8.dropWhile pyIsSpace).isEmpty then some (w.asString, w2.asString)
          else none
        else
          match r7 with
          | '/' :: '1' :: '2' :: r9 =>
            if (r9.dropWhile pyIsSpace).isEmpty then some (w.asString, "/12")
            else none
          | _ => none
      | _ => none
  | _ => none

/-- The full-line `RULE_PATTERN` regex `^(.+?)\s*->\s*(\w+)\s*,\s*(\w+|/12)\s*$`:
the lazy `(.+?)` tries split points from the shortest nonempty prefix
upward, the first split point whose remainder matches the tail wins. -/
def rulePatternGo (acc : List Char) : List Char → Option (List Char × String × String)
  | [] => none
  | c :: rest =>
    match matchRuleTail rest with
    | some (b, ct) => some (acc ++ [c], b, ct)
    | none => rulePatternGo (acc ++ [c]) rest

/-- See `rulePatternGo`. -/
def rulePatternMatch (l : List Char) : Option (List Char × String × String) :=
  rulePatternGo [] l

/-- The modifier-validation loop of `parse_rule`: turn raw modifier matches
into `NumericCondition`s, raising on the first invalid variable name. -/
def condsOfMods (line_number : ℕ) :
    List (String × String × ℚ × Bool) → Except String (List NumericCondition)
  | [] => .ok []
  | (v, op, value, pct) :: rest =>
    if v ∈ VALID_VARIABLES then
      match condsOfMods line_number rest with
      | .ok cs => .ok ({ var := v, operator := op, value := value,
                         is_percentage := pct } :: cs)
      | .error e => .error e
    else
      .error ("Line " ++ toString line_number ++ ": Invalid variable '" ++ v ++
        "'. Must be one of: " ++ String.intercalate ", " VALID_VARIABLES)

/-- The field-validation loop of `parse_rule`: turn raw field matches into
`FieldMatch`es, raising on the first field other than category/subcategory. -/
def fieldsOfPairs (line_number : ℕ) :
    List (String × String) → Except String (List FieldMatch)
  | [] => .ok []
  | (f, v) :: rest =>
    if f = "category" ∨ f = "subcategory" then
      match fieldsOfPairs line_number rest with
      | .ok fs => .ok ({ field := f, value := v } :: fs)
      | .error e => .error e
    else
      .error ("Line " ++ toString line_number ++ ": Invalid field '" ++ f ++
        "'. Must be 'category' or 'subcategory'")

/-- `parse_rule` from `classification_rules.py`: parse one rule line.
Blank lines and comments yield `none`; syntax and validation errors are
`Except.error` (the source's `RuleParseError`). -/
def parse_rule (line : List Char) (line_number : ℕ) :
    Except String (Option ClassificationRule) :=
  let stripped := pyStrip line
  if stripped.isEmpty || stripped.head? = some '#' then .ok none
  else
    match rulePatternMatch stripped with
    | none =>
      .error ("Line " ++ toString line_number ++ ": Invalid rule syntax: " ++
        stripped.asString)
    | some (condition_part, bucket, calc_type) =>
      if bucket ∉ VALID_BUCKETS then
        .error ("Line " ++ toString line_number ++ ": Invalid bucket '" ++
          bucket ++ "'")
      else if calc_type ∉ VALID_CALC_TYPES then
        .error ("Line " ++ toString line_number ++ ": Invalid calc_type '" ++
          calc_type ++ "'")
      else if pyStrip condition_part = ['*'] then
        .ok (some { line_number := line_number, raw_text := stripped.asString,
                    field_matches := [], conditions := [], bucket := bucket,
                    calc_type := calc_type, is_default := true })
      else
        let scanned := scanModifiers condition_part
        match condsOfMods line_number scanned.1 with
        | .error e => .error e
        | .ok conditions =>
          match fieldsOfPairs line_number (scanFields scanned.2) with
          | .error e => .error e
          | .ok field_matches =>
            .ok (some { line_number := line_number, raw_text := stripped.asString,
                        field_matches := field_matches, conditions := conditions,
                        bucket := bucket, calc_type := calc_type,
                        is_default := false })

/-- The line loop of `parse_rules`, numbering lines from `n`. -/
def parse_rules_go (n : ℕ) : List (List Char) → Except String (List ClassificationRule)
  | [] => .ok []
  | line :: rest =>
    match parse_rule line n with
    | .error e => .error e
    | .ok none => parse_rules_go (n + 1) rest
    | .ok (some r) =>
      match parse_rules_go (n + 1) rest with
      | .ok rs => .ok (r :: rs)
      | .error e => .error e

/-- `parse_rules` from `classification_rules.py`: strip the text, split on
newlines, parse each line (numbered from 1). -/
def parse_rules (text : String) : Except String (List ClassificationRule) :=
  parse_rules_go 1 (splitLines (pyStrip text.data))

/-- `evaluate_condition` from `classification_rules.py`: evaluate a single
numeric condition against merchant stats.  The variable lookup mirrors the
if/elif chain (unknown variables fall through to `False`); a percentage
threshold becomes `max(2, int(num_months * (value / 100.0)))`. -/
def evaluate_condition (cond : NumericCondition) (stats : Stats)
    (num_months : ℤ) : Bool :=
  let value? : Option ℚ :=
    if cond.var = "months" then some (stats.months_active.getD 1)
    else if cond.var = "count" then some (stats.count.getD 0)
    else if cond.var = "total" then some (stats.total.getD 0)
    else if cond.var = "cv" then some (stats.cv.getD 0)
    else if cond.var = "max" then some (stats.max_payment.getD 0)
    else if cond.var = "avg" then
      let count := stats.count.getD 1
      some (if 0 < count then stats.total.getD 0 / count else 0)
    else if cond.var = "max_avg_ratio" then
      let count := stats.count.getD 1
      let avg := if 0 < count then stats.total.getD 0 / count else 0
      some (if 0 < avg then stats.max_payment.getD 0 / avg else 0)
    else none
  match value? with
  | none => false
  | some value =>
    let threshold : ℚ :=
      if cond.is_percentage then
        ((max 2 (pyInt ((num_months : ℚ) * (cond.value / 100))) : ℤ) : ℚ)
      else cond.value
    if cond.operator = ">" then decide (threshold < value)
    else if cond.operator = ">=" then decide (threshold ≤ value)
    else if cond.operator = "<" then decide (value < threshold)
    else if cond.operator = "<=" then decide (value ≤ threshold)
    else if cond.operator = "=" then decide (|value - threshold| < 1/1000)
    else false

/-- `matches_rule`: a rule matches when it is the default rule, or all its
field matches hold and all its numeric conditions hold. -/
def matches_rule (rule : ClassificationRule) (stats : Stats)
    (num_months : ℤ) : Bool :=
  if rule.is_default then true
  else
    (rule.field_matches.all fun fm =>
      if fm.field = "category" then stats.category.getD "" = fm.value
      else if fm.field = "subcategory" then stats.subcategory.getD "" = fm.value
      else true) &&
    (rule.conditions.all fun cond => evaluate_condition cond stats num_months)

/-- `resolve_calc_type`: resolve an `auto` calc type from the coefficient of
variation. -/
def resolve_calc_type (calc_type : String) (cv : ℚ) : String :=
  if calc_type = "auto" then
    if cv < (3 : ℚ)/10 then "avg" else "/12"
  else calc_type

/-- `classify_merchant`: first-match-wins scan of the rule list, with the
hardcoded `("variable", "/12")` fallback when nothing matches. -/
def classify_merchant (stats : Stats) (rules : List ClassificationRule)
    (num_months : ℤ) : String × String :=
  match rules with
  | [] => ("variable", "/12")
  | rule :: rest =>
    if matches_rule rule stats num_months then
      (rule.bucket, resolve_calc_type rule.calc_type (stats.cv.getD 0))
    else classify_merchant stats rest num_months

/-- Statement helper: the merchant value a condition reads, mirroring the
variable lookup of `evaluate_condition` (`none` for unknown variables). -/
def condStatValue (cond : NumericCondition) (stats : Stats) : Option ℚ :=
  if cond.var = "months" then some (stats.months_active.getD 1)
  else if cond.var = "count" then some (stats.count.getD 0)
  else if cond.var = "total" then some (stats.total.getD 0)
  else if cond.var = "cv" then some (stats.cv.getD 0)
  else if cond.var = "max" then some (stats.max_payment.getD 0)
  else if cond.var = "avg" then
    let count := stats.count.getD 1
    some (if 0 < count then stats.total.getD 0 / count else 0)
  else if cond.var = "max_avg_ratio" then
    let count := stats.count.getD 1
    let avg := if 0 < count then stats.total.getD 0 / count else 0
    some (if 0 < avg then stats.max_payment.getD 0 / avg else 0)
  else none

/-- Statement helper: the effective threshold of a condition, mirroring the
threshold computation of `evaluate_condition`. -/
def condThreshold (cond : NumericCondition) (nm : ℤ) : ℚ :=
  if cond.is_percentage then
    ((max 2 (pyInt ((nm : ℚ) * (cond.value / 100))) : ℤ) : ℚ)
  else cond.value

/-- The percentage threshold as the specification writes it:
`max(2, floor(num_months * pct / 100))`. -/
def specPctThreshold (nm : ℤ) (pct : ℚ) : ℚ :=
  ((max 2 ⌊(nm : ℚ) * (pct / 100)⌋ : ℤ) : ℚ)

/-- Statement helper: the operator dispatch of `evaluate_condition` alone. -/
def compareOp (op : String) (value threshold : ℚ) : Bool :=
  if op = ">" then decide (threshold < value)
  else if op = ">=" then decide (threshold ≤ value)
  else if op = "<" then decide (value < threshold)
  else if op = "<=" then decide (value ≤ threshold)
  else if op = "=" then decide (|value - threshold| < 1/1000)
  else false

/-- Statement helper: what it means for a single field-equality match to hold
against the stats (fields other than category/subcategory are vacuous, as in
the source loop). -/
def fieldMatchHolds (fm : FieldMatch) (stats : Stats) : Prop :=
  (fm.field = "category" → stats.category.getD "" = fm.value) ∧
  (fm.field = "subcategory" → stats.subcategory.getD "" = fm.value)

/-- Under `max 2`, Python truncation toward zero agrees with the floor:
for negative arguments both sides clamp to 2. -/
theorem max_two_pyInt (q : ℚ) : max 2 (pyInt q) = max 2 ⌊q⌋ := by
  unfold pyInt
  split
  · rfl
  · rename_i hq
    push_neg at hq
    have h1 : ⌈q⌉ ≤ 0 := Int.ceil_le.2 (by exact_mod_cast hq.le)
    have h2 : ⌊q⌋ ≤ ⌈q⌉ := Int.floor_le_ceil q
    rw [max_eq_left (by omega), max_eq_left (by omega)]

/-- The boolean field check inside `matches_rule` agrees with
`fieldMatchHolds`. -/
theorem fieldCheck_iff (fm : FieldMatch) (stats : Stats) :
    ((if fm.field = "category" then decide (stats.category.getD "" = fm.value)
      else if fm.field = "subcategory" then
        decide (stats.subcategory.getD "" = fm.value)
      else true) = true) ↔ fieldMatchHolds fm stats := by
  unfold fieldMatchHolds
  by_cases h1 : fm.field = "category"
  · have h2 : ¬ fm.field = "subcategory" := by simp [h1]
    simp [h1, h2]
  · by_cases h2 : fm.field = "subcategory"
    · simp [h1, h2]
    · simp [h1, h2]

/-- `matches_rule` holds exactly when the rule is the wildcard or all its
field matches and all its numeric conditions hold. -/
theorem matches_rule_iff (rule : ClassificationRule) (stats : Stats) (nm : ℤ) :
    matches_rule rule stats nm = true ↔
      (rule.is_default = true ∨
        ((∀ fm ∈ rule.field_matches, fieldMatchHolds fm stats) ∧
         (∀ c ∈ rule.conditions, evaluate_condition c stats nm = true))) := by
  unfold matches_rule
  cases hd : rule.is_default with
  | true => simp
  | false =>
    rw [if_neg (by simp), Bool.and_eq_true, List.all_eq_true, List.all_eq_true]
    simp only [Bool.false_eq_true, false_or]
    constructor
    · rintro ⟨hf, hc⟩
      exact ⟨fun fm hm => (fieldCheck_iff fm stats).1 (hf fm hm), hc⟩
    · rintro ⟨hf, hc⟩
      exact ⟨fun fm hm => (fieldCheck_iff fm stats).2 (hf fm hm), hc⟩

/-- Concrete stats used by the rule-engine witnesses. -/
def wStats : Stats :=
  { category := some "Bills", months_active := some 7, cv := some 0 }

/-- A rule that does not match `wStats`. -/
def wRuleTravel : ClassificationRule :=
  { line_number := 1, raw_text := "", field_matches := [⟨"category", "Travel"⟩],
    conditions := [], bucket := "travel", calc_type := "/12", is_default := false }

/-- A rule that matches `wStats`. -/
def wRuleBills : ClassificationRule :=
  { line_number := 2, raw_text := "", field_matches := [⟨"category", "Bills"⟩],
    conditions := [⟨"months", ">=", 6, false⟩], bucket := "monthly",
    calc_type := "auto", is_default := false }

/-- The wildcard rule. -/
def wRuleDefault : ClassificationRule :=
  { line_number := 3, raw_text := "", field_matches := [], conditions := [],
    bucket := "variable", calc_type := "/12", is_default := true }

/-- C1: `classify_merchant` is first-match-wins over the ordered rule list:
if no rule of the prefix `l₁` matches and `r` matches, the result is derived
from `r` regardless of the rules `l₂` after it; a rule matches exactly when
all its field-equality matches and all its numeric conditions hold (AND
semantics), and a wildcard (`is_default`) rule matches every stats input. -/
theorem classify_merchant_first_match_wins (stats : Stats) (nm : ℤ)
    (l₁ l₂ : List ClassificationRule) (r : ClassificationRule)
    (hnone : ∀ r' ∈ l₁, matches_rule r' stats nm = false)
    (hr : matches_rule r stats nm = true) :
    classify_merchant stats (l₁ ++ r :: l₂) nm
        = (r.bucket, resolve_calc_type r.calc_type (stats.cv.getD 0))
      ∧ (∀ rule : ClassificationRule,
          matches_rule rule stats nm = true ↔
            (rule.is_default = true ∨
              ((∀ fm ∈ rule.field_matches, fieldMatchHolds fm stats) ∧
               (∀ c ∈ rule.conditions, evaluate_condition c stats nm = true))))
      ∧ (∀ rule : ClassificationRule, rule.is_default = true →
          matches_rule rule stats nm = true) := by
  refine ⟨?_, fun rule => matches_rule_iff rule stats nm, ?_⟩
  · induction l₁ with
    | nil => simp [classify_merchant, hr]
    | cons a t ih =>
      have ha := hnone a (by simp)
      simpa [classify_merchant, ha] using ih fun r' hm => hnone r' (by simp [hm])
  · intro rule hd
    simp [matches_rule, hd]

/-- Witness for C1 at a concrete input: a non-matching rule ahead of the
matching one, with the wildcard rule behind it. -/
theorem classify_merchant_first_match_wins_witness :
    (∀ r' ∈ [wRuleTravel], matches_rule r' wStats 12 = false)
    ∧ matches_rule wRuleBills wStats 12 = true
    ∧ (classify_merchant wStats ([wRuleTravel] ++ wRuleBills :: [wRuleDefault]) 12
          = (wRuleBills.bucket, resolve_calc_type wRuleBills.calc_type (wStats.cv.getD 0))
        ∧ (∀ rule : ClassificationRule,
            matches_rule rule wStats 12 = true ↔
              (rule.is_default = true ∨
                ((∀ fm ∈ rule.field_matches, fieldMatchHolds fm wStats) ∧
                 (∀ c ∈ rule.conditions, evaluate_condition c wStats 12 = true))))
        ∧ (∀ rule : ClassificationRule, rule.is_default = true →
            matches_rule rule wStats 12 = true)) :=
  ⟨by decide, by decide,
    classify_merchant_first_match_wins wStats 12 [wRuleTravel] [wRuleDefault]
      wRuleBills (by decide) (by decide)⟩

/-- C3: for a percentage-flagged condition the comparison is made against the
absolute threshold `max(2, floor(num_months * pct / 100))`, never against the
written percentage, and that effective threshold is never below 2. -/
theorem evaluate_condition_percentage_threshold (cond : NumericCondition)
    (stats : Stats) (nm : ℤ) (hpct : cond.is_percentage = true) (hnm : 1 ≤ nm)
    (hv : cond.var ∈ VALID_VARIABLES) :
    evaluate_condition cond stats nm
        = compareOp cond.operator ((condStatValue cond stats).getD 0)
            (specPctThreshold nm cond.value)
      ∧ (2:ℚ) ≤ specPctThreshold nm cond.value := by
  constructor
  · simp only [VALID_VARIABLES, List.mem_cons, List.not_mem_nil, or_false] at hv
    have hmax := max_two_pyInt ((nm : ℚ) * (cond.value / 100))
    rcases hv with h|h|h|h|h|h|h <;>
      simp [evaluate_condition, condStatValue, compareOp, specPctThreshold, h,
        hpct, hmax]
  · have h2 : (2:ℤ) ≤ max 2 ⌊(nm:ℚ) * (cond.value/100)⌋ := le_max_left _ _
    unfold specPctThreshold
    exact_mod_cast h2

/-- Witness for C3: the `months>=50%` condition of the default rule file at
`num_months = 12`. -/
theorem evaluate_condition_percentage_threshold_witness :
    (⟨"months", ">=", 50, true⟩ : NumericCondition).is_percentage = true
    ∧ (1:ℤ) ≤ 12
    ∧ (⟨"months", ">=", 50, true⟩ : NumericCondition).var ∈ VALID_VARIABLES
    ∧ (evaluate_condition ⟨"months", ">=", 50, true⟩ wStats 12
          = compareOp ">="
              ((condStatValue ⟨"months", ">=", 50, true⟩ wStats).getD 0)
              (specPctThreshold 12 50)
        ∧ (2:ℚ) ≤ specPctThreshold 12 50) :=
  ⟨rfl, by decide, by decide,
    evaluate_condition_percentage_threshold ⟨"months", ">=", 50, true⟩ wStats 12
      rfl (by decide) (by decide)⟩

/-- Every rule produced by `parse_rule` passed the bucket and calc-type
validation. -/
theorem parse_rule_ok_valid {line : List Char} {n : ℕ} {r : ClassificationRule}
    (h : parse_rule line n = .ok (some r)) :
    r.bucket ∈ VALID_BUCKETS ∧ r.calc_type ∈ VALID_CALC_TYPES := by
  simp only [parse_rule] at h
  split at h
  · exact absurd h (by simp)
  · split at h
    · exact absurd h (by simp)
    · rename_i condition_part bucket calc_type
      split at h
      · exact absurd h (by simp)
      · rename_i hb
        split at h
        · exact absurd h (by simp)
        · rename_i hc
          push_neg at hb hc
          split at h
          · simp only [Except.ok.injEq, Option.some.injEq] at h
            subst h
            exact ⟨hb, hc⟩
          · split at h
            · exact absurd h (by simp)
            · split at h
              · exact absurd h (by simp)
              · simp only [Except.ok.injEq, Option.some.injEq] at h
                subst h
                exact ⟨hb, hc⟩

/-- Every rule produced by the `parse_rules` line loop passed validation. -/
theorem parse_rules_go_valid (lines : List (List Char)) :
    ∀ (n : ℕ) (rules : List ClassificationRule),
      parse_rules_go n lines = .ok rules →
      ∀ r ∈ rules, r.bucket ∈ VALID_BUCKETS ∧ r.calc_type ∈ VALID_CALC_TYPES := by
  induction lines with
  | nil =>
    intro n rules h r hr
    simp only [parse_rules_go, Except.ok.injEq] at h
    subst h
    simp at hr
  | cons line rest ih =>
    intro n rules h r hr
    unfold parse_rules_go at h
    split at h
    · exact absurd h (by simp)
    · exact ih _ _ h r hr
    · rename_i r0 heq
      split at h
      · rename_i rs hrec
        simp only [Except.ok.injEq] at h
        subst h
        rcases List.mem_cons.1 hr with hr0 | hrs
        · subst hr0
          exact parse_rule_ok_valid heq
        · exact ih _ _ hrec r hrs
      · exact absurd h (by simp)

/-- A validated calc type resolves to `avg` or `/12`. -/
theorem resolve_calc_type_mem {ct : String} (h : ct ∈ VALID_CALC_TYPES) (cv : ℚ) :
    resolve_calc_type ct cv = "avg" ∨ resolve_calc_type ct cv = "/12" := by
  simp only [VALID_CALC_TYPES, List.mem_cons, List.not_mem_nil, or_false] at h
  rcases h with h|h|h <;> subst h
  · left; rfl
  · right; rfl
  · unfold resolve_calc_type
    rw [if_pos rfl]
    split
    · left; rfl
    · right; rfl

/-- Over a validated rule list, `classify_merchant` lands in the valid bucket
set and resolves the calc type to `avg` or `/12`. -/
theorem classify_merchant_valid (stats : Stats) (nm : ℤ) :
    ∀ rules : List ClassificationRule,
      (∀ r ∈ rules, r.bucket ∈ VALID_BUCKETS ∧ r.calc_type ∈ VALID_CALC_TYPES) →
      (classify_merchant stats rules nm).1 ∈ VALID_BUCKETS ∧
      ((classify_merchant stats rules nm).2 = "avg" ∨
        (classify_merchant stats rules nm).2 = "/12") := by
  intro rules
  induction rules with
  | nil =>
    intro _
    refine ⟨?_, Or.inr rfl⟩
    show ("variable" : String) ∈ VALID_BUCKETS
    decide
  | cons a rest ih =>
    intro hval
    simp only [classify_merchant]
    split
    · exact ⟨(hval a (by simp)).1, resolve_calc_type_mem (hval a (by simp)).2 _⟩
    · exact ih fun r hr => hval r (by simp [hr])

/-- C2: over a rule list parsed from a rule file containing the wildcard,
`classify_merchant` returns a bucket from the fixed 7-value set and a calc
type in `{avg, /12}`, never `auto`; an `auto` calc type resolves to `avg`
exactly when `cv < 0.3` and to `/12` otherwise. -/
theorem classify_merchant_parsed_valid (text : String)
    (rules : List ClassificationRule) (stats : Stats) (nm : ℤ)
    (hparse : parse_rules text = .ok rules)
    (hwild : ∃ r ∈ rules, r.is_default = true) :
    (classify_merchant stats rules nm).1 ∈ VALID_BUCKETS
    ∧ ((classify_merchant stats rules nm).2 = "avg" ∨
       (classify_merchant stats rules nm).2 = "/12")
    ∧ (classify_merchant stats rules nm).2 ≠ "auto"
    ∧ (∀ cv : ℚ, resolve_calc_type "auto" cv
          = if cv < 3/10 then "avg" else "/12") := by
  unfold parse_rules at hparse
  have hval := parse_rules_go_valid _ _ _ hparse
  obtain ⟨h1, h2⟩ := classify_merchant_valid stats nm rules hval
  refine ⟨h1, h2, ?_, fun cv => by simp [resolve_calc_type]⟩
  rcases h2 with h|h <;> simp [h]

/-- The rule file used by the C2 witness. -/
def wRulesText : String :=
  "category=Transfers -> excluded,/12\n* -> variable,/12"

/-- First parsed rule of `wRulesText`. -/
def wRuleTransfers : ClassificationRule :=
  { line_number := 1, raw_text := "category=Transfers -> excluded,/12",
    field_matches := [⟨"category", "Transfers"⟩], conditions := [],
    bucket := "excluded", calc_type := "/12", is_default := false }

/-- Second parsed rule of `wRulesText`: the wildcard. -/
def wRuleStar : ClassificationRule :=
  { line_number := 2, raw_text := "* -> variable,/12", field_matches := [],
    conditions := [], bucket := "variable", calc_type := "/12",
    is_default := true }

/-- Witness for C2: the two-line rule file `wRulesText` parses, contains the
wildcard, and classification of `wStats` stays in the valid sets. -/
theorem classify_merchant_parsed_valid_witness :
    parse_rules wRulesText = Except.ok [wRuleTransfers, wRuleStar]
    ∧ (∃ r ∈ [wRuleTransfers, wRuleStar], r.is_default = true)
    ∧ ((classify_merchant wStats [wRuleTransfers, wRuleStar] 12).1 ∈ VALID_BUCKETS
       ∧ ((classify_merchant wStats [wRuleTransfers, wRuleStar] 12).2 = "avg" ∨
          (classify_merchant wStats [wRuleTransfers, wRuleStar] 12).2 = "/12")
       ∧ (classify_merchant wStats [wRuleTransfers, wRuleStar] 12).2 ≠ "auto"
       ∧ (∀ cv : ℚ, resolve_calc_type "auto" cv
             = if cv < 3/10 then "avg" else "/12")) :=
  ⟨by decide, by decide,
    classify_merchant_parsed_valid wRulesText [wRuleTransfers, wRuleStar] wStats 12
      (by decide) (by decide)⟩

/-- C10: the `=` modifier operator compares with a fixed tolerance, holding
exactly when the merchant value is within `0.001` of the (possibly
percentage-converted) threshold. -/
theorem evaluate_condition_eq_tolerance (cond : NumericCondition) (stats : Stats)
    (nm : ℤ) (hop : cond.operator = "=") (hv : cond.var ∈ VALID_VARIABLES) :
    evaluate_condition cond stats nm = true ↔
      |(condStatValue cond stats).getD 0 - condThreshold cond nm| < 1/1000 := by
  simp only [VALID_VARIABLES, List.mem_cons, List.not_mem_nil, or_false] at hv
  rcases hv with h|h|h|h|h|h|h <;>
    simp [evaluate_condition, condStatValue, condThreshold, h, hop]

/-- Witness for C10: a `cv=0` condition against stats with `cv = 0`. -/
theorem evaluate_condition_eq_tolerance_witness :
    (⟨"cv", "=", 0, false⟩ : NumericCondition).operator = "="
    ∧ (⟨"cv", "=", 0, false⟩ : NumericCondition).var ∈ VALID_VARIABLES
    ∧ (evaluate_condition ⟨"cv", "=", 0, false⟩ wStats 12 = true ↔
        |(condStatValue ⟨"cv", "=", 0, false⟩ wStats).getD 0
          - condThreshold ⟨"cv", "=", 0, false⟩ 12| < 1/1000) :=
  ⟨rfl, by decide,
    evaluate_condition_eq_tolerance ⟨"cv", "=", 0, false⟩ wStats 12 rfl (by decide)⟩

end Rules

namespace ExprLang

/-!
Modelled from the spec: the expression parser/evaluator module
(`expr_parser`, imported by `section_engine.py` and exercised by
`tests/test_expr_parser.py`) is absent from the sources, so the data model
and evaluator below follow the specification's description of the
expression grammar, the built-in primitives and aggregates, and the
evaluation rules (short-circuit boolean logic, division by zero yielding
zero, case-insensitive string comparison, errors for unknown
variables/functions/grouping fields).
-/

/-- A calendar date (year, month, day). -/
structure Date where
  year : ℤ
  month : ℕ
  day : ℕ
deriving Repr, DecidableEq

/-- A transaction record, as consumed from collaborators:
`{amount, date, category, subcategory, merchant, tags}`. -/
structure Transaction where
  amount : ℚ
  date : Date
  category : String
  subcategory : String
  merchant : String
  tags : List String
deriving Repr, DecidableEq

/-- Modelled from the spec: a runtime value of the expression language —
a scalar (number/bool/string), a list, or the explicit absent/null marker
used for failed variable evaluations (Python `None`). -/
inductive Value where
  | none
  | num (q : ℚ)
  | str (s : String)
  | bool (b : Bool)
  | list (elems : List Value)
deriving Repr

/-- Modelled from the spec: the evaluation-time error taxonomy — unknown
variable, unknown function, unknown grouping field, and type errors
(the source's `ExpressionError`). -/
inductive ExprError where
  | unknownVariable (name : String)
  | unknownFunction (name : String)
  | unknownField (name : String)
  | typeError (msg : String)
deriving Repr, DecidableEq

/-- Modelled from the spec: the evaluation context — transaction set,
period length, and variable bindings (an insertion-ordered mapping). -/
structure EvalCtx where
  transactions : List Transaction
  num_months : ℤ := 12
  vars : List (String × Value) := []

/-- `create_context` of the source's interface. -/
def create_context (transactions : List Transaction) (num_months : ℤ)
    (vars : List (String × Value)) : EvalCtx :=
  { transactions := transactions, num_months := num_months, vars := vars }

/-- Comparison operators of the expression grammar. -/
inductive CmpOp where
  | eq | ne | lt | le | gt | ge
deriving Repr, DecidableEq

/-- Arithmetic operators of the expression grammar. -/
inductive ArithOp where
  | add | sub | mul | div | mod
deriving Repr, DecidableEq

/-- Modelled from the spec: the expression tree — the closed set of node
kinds {literal, identifier, unary op, binary op, comparison chain,
boolean and/or/not, conditional, membership test, function call}.
Disallowed constructs (collection literals, comprehensions, lambdas,
attribute access, subscripting) have no constructor at all, which is the
embedding of parse-time unsafe-node rejection. -/
inductive Expr where
  | num (q : ℚ)
  | str (s : String)
  | boolLit (b : Bool)
  | ident (name : String)
  | neg (e : Expr)
  | bin (op : ArithOp) (a b : Expr)
  | cmp (first : Expr) (links : List (CmpOp × Expr))
  | andE (a b : Expr)
  | orE (a b : Expr)
  | notE (e : Expr)
  | condE (c t e : Expr)
  | mem (negated : Bool) (x coll : Expr)
  | call (f : String) (args : List Expr)
deriving Repr

/-- Python truthiness coercion (`bool(...)`) on values. -/
def pyTruthy : Value → Bool
  | .none => false
  | .num q => decide (q ≠ 0)
  | .str s => decide (s ≠ "")
  | .bool b => b
  | .list l => !l.isEmpty

/-- Modelled from the spec: `==` equality on values, case-insensitive on
strings; values of different shapes are unequal. -/
def valueEq : Value → Value → Bool
  | .num a, .num b => decide (a = b)
  | .str a, .str b => decide (a.toLower = b.toLower)
  | .bool a, .bool b => a == b
  | .none, .none => true
  | _, _ => false

/-- Modelled from the spec: ordered/equality comparison dispatch; ordering
is defined for numbers (and case-normalized strings), anything else is a
type error. -/
def cmpVals : CmpOp → Value → Value → Except ExprError Bool
  | .eq, a, b => .ok (valueEq a b)
  | .ne, a, b => .ok (!valueEq a b)
  | op, .num a, .num b =>
    match op with
    | .lt => .ok (decide (a < b))
    | .le => .ok (decide (a ≤ b))
    | .gt => .ok (decide (b < a))
    | .ge => .ok (decide (b ≤ a))
    | _ => .error (.typeError "bad comparison")
  | op, .str a, .str b =>
    match op with
    | .lt => .ok (decide (a.toLower < b.toLower))
    | .le => .ok (decide (a.toLower ≤ b.toLower))
    | .gt => .ok (decide (b.toLower < a.toLower))
    | .ge => .ok (decide (b.toLower ≤ a.toLower))
    | _ => .error (.typeError "bad comparison")
  | _, _, _ => .error (.typeError "bad comparison")

/-- Modelled from the spec: arithmetic on numbers, with division by zero
a defined value (numeric zero), not an error. -/
def evalArith : ArithOp → Value → Value → Except ExprError Value
  | op, .num a, .num b =>
    match op with
    | .add => .ok (.num (a + b))
    | .sub => .ok (.num (a - b))
    | .mul => .ok (.num (a * b))
    | .div => if b = 0 then .ok (.num 0) else .ok (.num (a / b))
    | .mod => if b = 0 then .ok (.num 0) else .ok (.num (a - b * ⌊a / b⌋))
  | _, _, _ => .error (.typeError "bad arithmetic")

/-- The year-month bucket of a transaction. -/
def monthKey (t : Transaction) : ℤ × ℕ := (t.date.year, t.date.month)

/-- Modelled from the spec: `months` — the count of distinct year-month
buckets present, minimum 1 on empty input. -/
def monthsOf (txns : List Transaction) : ℤ :=
  let ks := (txns.map monthKey).dedup
  if ks.length = 0 then 1 else ks.length

/-- Modelled from the spec: `tags` — the union of all transaction tags,
case-insensitive (kept lowercased). -/
def tagsOf (txns : List Transaction) : List String :=
  ((txns.flatMap fun t => t.tags).map String.toLower).dedup

/-- Ascending order on year-month keys. -/
def keyLE (a b : ℤ × ℕ) : Prop := a.1 < b.1 ∨ (a.1 = b.1 ∧ a.2 ≤ b.2)

instance : DecidableRel keyLE := fun a b => by
  unfold keyLE
  infer_instance

/-- Modelled from the spec: `by('month')` — payment lists bucketed by
year-month, sorted by bucket key ascending. -/
def byMonth (txns : List Transaction) : Value :=
  let ks := ((txns.map monthKey).dedup).insertionSort keyLE
  .list (ks.map fun k =>
    .list ((txns.filter fun t => monthKey t = k).map fun t => .num t.amount))

/-- Coerce a list of values to numbers (aggregate argument). -/
def toNums : List Value → Except ExprError (List ℚ)
  | [] => .ok []
  | .num q :: rest => do
    let qs ← toNums rest
    .ok (q :: qs)
  | _ :: _ => .error (.typeError "aggregate over non-numbers")

/-- Maximum of a rational list, 0 when empty. -/
def maxQ : List ℚ → ℚ
  | [] => 0
  | h :: t => t.foldl max h

/-- Minimum of a rational list, 0 when empty. -/
def minQ : List ℚ → ℚ
  | [] => 0
  | h :: t => t.foldl min h

/-- Fixed-precision square root on rationals: a computable stand-in for the
floating-point square root used by `stddev` (exact on 0, which is the only
value the verified claims exercise). -/
def ratSqrt (q : ℚ) : ℚ :=
  if q ≤ 0 then 0
  else ((Nat.sqrt (q * 10^12).floor.toNat : ℚ) / 10^6)

/-- Modelled from the spec: sample standard deviation; `0` on empty and
single-element lists. -/
def stddevQ (xs : List ℚ) : ℚ :=
  if xs.length ≤ 1 then 0
  else
    let mean := xs.sum / xs.length
    ratSqrt ((xs.map fun x => (x - mean)^2).sum / (xs.length - 1 : ℕ))

/-- Modelled from the spec: the flat aggregates over numeric lists, all
returning 0 on the empty list. -/
def aggFlat (name : String) (xs : List ℚ) : ℚ :=
  if name = "sum" then xs.sum
  else if name = "count" then xs.length
  else if name = "avg" then (if xs.length = 0 then 0 else xs.sum / xs.length)
  else if name = "max" then maxQ xs
  else if name = "min" then minQ xs
  else if name = "stddev" then stddevQ xs
  else 0

/-- Whether a value is a list (used for aggregate auto-mapping). -/
def isListV : Value → Bool
  | .list _ => true
  | _ => false

/-- Modelled from the spec: aggregates accept a flat list or a list of
lists; on a (nonempty) list of lists they auto-map, returning one
aggregate per inner list. -/
def applyAgg (name : String) (v : Value) : Except ExprError Value :=
  match v with
  | .list es =>
    if !es.isEmpty && es.all isListV then
      match aggInner name es with
      | .ok vs => .ok (.list vs)
      | .error e => .error e
    else
      match toNums es with
      | .ok xs => .ok (.num (aggFlat name xs))
      | .error e => .error e
  | _ => .error (.typeError "aggregate over non-list")
where
  /-- Auto-map an aggregate over inner lists. -/
  aggInner (name : String) : List Value → Except ExprError (List Value)
    | [] => .ok []
    | .list inner :: rest => do
      let xs ← toNums inner
      let vs ← aggInner name rest
      .ok (.num (aggFlat name xs) :: vs)
    | _ :: _ => .error (.typeError "aggregate over non-list")

/-- Python `round` (half to even) on rationals. -/
def pyRound (q : ℚ) : ℤ :=
  let fl := ⌊q⌋
  let frac := q - fl
  if frac < 1/2 then fl
  else if 1/2 < frac then fl + 1
  else if Even fl then fl else fl + 1

/-- Membership test (`in`): case-insensitive membership in a list value. -/
def memTest (x : Value) (coll : Value) : Except ExprError Bool :=
  match coll with
  | .list es => .ok (es.any fun e => valueEq x e)
  | _ => .error (.typeError "membership in non-list")

/-- Modelled from the spec: identifier resolution — context variables
first (shadowing), then the built-in primitives `payments`, `months`,
`category`, `subcategory`, `tags`; anything else is an unknown-variable
error. -/
def evalIdent (ctx : EvalCtx) (name : String) : Except ExprError Value :=
  match ctx.vars.lookup name with
  | some v => .ok v
  | Option.none =>
    if name = "payments" then
      .ok (.list (ctx.transactions.map fun t => .num t.amount))
    else if name = "months" then .ok (.num (monthsOf ctx.transactions))
    else if name = "category" then
      .ok (.str ((ctx.transactions.head?.map fun t => t.category).getD ""))
    else if name = "subcategory" then
      .ok (.str ((ctx.transactions.head?.map fun t => t.subcategory).getD ""))
    else if name = "tags" then
      .ok (.list ((tagsOf ctx.transactions).map fun s => .str s))
    else .error (.unknownVariable name)

/-- Modelled from the spec: built-in function dispatch — the aggregates,
the scalar helpers `abs` and `round`, and the grouping function `by`;
anything else is an unknown-function error. -/
def applyFn (ctx : EvalCtx) (f : String) (args : List Value) :
    Except ExprError Value :=
  if f = "sum" ∨ f = "count" ∨ f = "avg" ∨ f = "max" ∨ f = "min" ∨
      f = "stddev" then
    match args with
    | [v] => applyAgg f v
    | _ => .error (.typeError "aggregate arity")
  else if f = "abs" then
    match args with
    | [.num q] => .ok (.num |q|)
    | _ => .error (.typeError "abs arity")
  else if f = "round" then
    match args with
    | [.num q] => .ok (.num (pyRound q))
    | _ => .error (.typeError "round arity")
  else if f = "by" then
    match args with
    | [.str field] =>
      if field = "month" then .ok (byMonth ctx.transactions)
      else .error (.unknownField field)
    | _ => .error (.typeError "by arity")
  else .error (.unknownFunction f)

mutual

/-- Modelled from the spec: the tree-walking evaluator (`evaluate_ast`).
Boolean `and`/`or` short-circuit: the right operand is not evaluated when
the left operand already determines the result, and the Python semantics
of returning the deciding operand's value are kept. -/
def evalExpr (ctx : EvalCtx) : Expr → Except ExprError Value
  | .num q => .ok (.num q)
  | .str s => .ok (.str s)
  | .boolLit b => .ok (.bool b)
  | .ident name => evalIdent ctx name
  | .neg e => do
    let v ← evalExpr ctx e
    match v with
    | .num q => .ok (.num (-q))
    | _ => .error (.typeError "unary minus")
  | .bin op a b => do
    let va ← evalExpr ctx a
    let vb ← evalExpr ctx b
    evalArith op va vb
  | .cmp first links => do
    let v ← evalExpr ctx first
    evalChain ctx v links
  | .andE a b => do
    let va ← evalExpr ctx a
    if pyTruthy va then evalExpr ctx b else .ok va
  | .orE a b => do
    let va ← evalExpr ctx a
    if pyTruthy va then .ok va else evalExpr ctx b
  | .notE e => do
    let v ← evalExpr ctx e
    .ok (.bool (!pyTruthy v))
  | .condE c t e => do
    let vc ← evalExpr ctx c
    if pyTruthy vc then evalExpr ctx t else evalExpr ctx e
  | .mem negated x coll => do
    let vx ← evalExpr ctx x
    let vc ← evalExpr ctx coll
    let b ← memTest vx vc
    .ok (.bool (if negated then !b else b))
  | .call f args => do
    let vs ← evalArgs ctx args
    applyFn ctx f vs

/-- A chained comparison `a OP b OP c ...` holds when every adjacent link
holds, short-circuiting on the first false link. -/
def evalChain (ctx : EvalCtx) (v : Value) :
    List (CmpOp × Expr) → Except ExprError Value
  | [] => .ok (.bool true)
  | (op, e) :: rest => do
    let w ← evalExpr ctx e
    let b ← cmpVals op v w
    if b then evalChain ctx w rest else .ok (.bool false)

/-- Evaluate call arguments left to right. -/
def evalArgs (ctx : EvalCtx) : List Expr → Except ExprError (List Value)
  | [] => .ok []
  | e :: es => do
    let v ← evalExpr ctx e
    let vs ← evalArgs ctx es
    .ok (v :: vs)

end

/-- C5: boolean `and`/`or` short-circuit — `False and E` evaluates to
`False` and `True or E` to `True` for every right operand `E` and every
context, without evaluating `E`; in particular no unknown-variable error is
raised even though evaluating the unbound identifier alone does raise it. -/
theorem evalExpr_short_circuit :
    (∀ (ctx : EvalCtx) (e : Expr),
        evalExpr ctx (.andE (.boolLit false) e) = .ok (.bool false))
    ∧ (∀ (ctx : EvalCtx) (e : Expr),
        evalExpr ctx (.orE (.boolLit true) e) = .ok (.bool true))
    ∧ evalExpr (create_context [] 12 []) (.ident "unknown_var")
        = .error (.unknownVariable "unknown_var") :=
  ⟨fun _ _ => rfl, fun _ _ => rfl, rfl⟩

/-- The single-transaction list used in the C6 stddev clause. -/
def singletonTxns (x : ℚ) : List Transaction :=
  [⟨x, ⟨2025, 1, 15⟩, "Food", "Grocery", "Test Merchant", []⟩]

/-- C6: every aggregate built-in applied to the empty payments list returns
0 rather than erroring, and `stddev` of any single-element list is 0. -/
theorem aggregates_empty_zero :
    evalExpr (create_context [] 12 []) (.call "sum" [.ident "payments"])
        = .ok (.num 0)
    ∧ evalExpr (create_context [] 12 []) (.call "count" [.ident "payments"])
        = .ok (.num 0)
    ∧ evalExpr (create_context [] 12 []) (.call "avg" [.ident "payments"])
        = .ok (.num 0)
    ∧ evalExpr (create_context [] 12 []) (.call "max" [.ident "payments"])
        = .ok (.num 0)
    ∧ evalExpr (create_context [] 12 []) (.call "min" [.ident "payments"])
        = .ok (.num 0)
    ∧ evalExpr (create_context [] 12 []) (.call "stddev" [.ident "payments"])
        = .ok (.num 0)
    ∧ ∀ x : ℚ, evalExpr (create_context (singletonTxns x) 12 [])
        (.call "stddev" [.ident "payments"]) = .ok (.num 0) :=
  ⟨rfl, rfl, rfl, rfl, rfl, rfl, fun _ => rfl⟩

/-- C7: division by zero in the evaluator is a defined value, not an error:
`10 / 0` evaluates to the number 0 in every context, and in general a
division whose operands evaluate to a number and to zero returns the
number 0 instead of raising. -/
theorem evalExpr_div_by_zero :
    (∀ ctx : EvalCtx,
        evalExpr ctx (.bin .div (.num 10) (.num 0)) = .ok (.num 0))
    ∧ (∀ (ctx : EvalCtx) (a b : Expr) (va : ℚ),
        evalExpr ctx a = .ok (.num va) → evalExpr ctx b = .ok (.num 0) →
        evalExpr ctx (.bin .div a b) = .ok (.num 0)) := by
  refine ⟨fun ctx => rfl, fun ctx a b va ha hb => ?_⟩
  have h : evalExpr ctx (.bin .div a b)
      = (do
          let x ← evalExpr ctx a
          let y ← evalExpr ctx b
          evalArith .div x y) := rfl
  rw [h, ha, hb]
  rfl

/-- Witness for C7's general clause at `a = 10`, `b = 0`. -/
theorem evalExpr_div_by_zero_witness :
    evalExpr (create_context [] 12 []) (.num 10) = .ok (.num 10)
    ∧ evalExpr (create_context [] 12 []) (.num 0) = .ok (.num 0)
    ∧ ((∀ ctx : EvalCtx,
          evalExpr ctx (.bin .div (.num 10) (.num 0)) = .ok (.num 0))
       ∧ (∀ (ctx : EvalCtx) (a b : Expr) (va : ℚ),
          evalExpr ctx a = .ok (.num va) → evalExpr ctx b = .ok (.num 0) →
          evalExpr ctx (.bin .div a b) = .ok (.num 0))) :=
  ⟨rfl, rfl, evalExpr_div_by_zero⟩

end ExprLang

/-- Insertion-ordered map update, the embedding of Python `dict[k] = v`:
an existing key keeps its position and gets the new value, a new key is
appended. -/
def setAssoc {α : Type} : List (String × α) → String → α → List (String × α)
  | [], k, v => [(k, v)]
  | (k', v') :: rest, k, v =>
    if k' = k then (k, v) :: rest else (k', v') :: setAssoc rest k v

/-- The embedding of Python `dict[k].append(x)` on a dict of lists (the key
is always present in the source's use, having been initialised first; on a
missing key this appends a fresh singleton entry). -/
def appendAssoc {α : Type} : List (String × List α) → String → α → List (String × List α)
  | [], k, x => [(k, [x])]
  | (k', v') :: rest, k, x =>
    if k' = k then (k', v' ++ [x]) :: rest else (k', v') :: appendAssoc rest k x

namespace SectionEngine

/-- `Section` from `section_engine.py`.  The source field `variables` is
called `vars` here because `variables` is reserved in Lean. -/
structure Section where
  name : String
  filter_expr : String
  filter_ast : Option ExprLang.Expr
  vars : List (String × String) := []
  description : Option String := none
  line_number : ℕ := 0

/-- `SectionConfig` from `section_engine.py`. -/
structure SectionConfig where
  global_variables : List (String × String)
  sections : List Section

/-- `SectionParseError` from `section_engine.py`. -/
structure SectionParseError where
  message : String
  line_number : ℕ := 0
  line_text : String := ""
deriving Repr, DecidableEq

/-- `COMMENT` regex `^\s*#`. -/
def isCommentLine (l : List Char) : Bool :=
  (l.dropWhile pyIsSpace).head? = some '#'

/-- `BLANK` regex `^\s*$`. -/
def isBlankLine (l : List Char) : Bool :=
  (l.dropWhile pyIsSpace).isEmpty

/-- `SECTION_HEADER` regex `^\[([^\]]+)\]\s*$`, applied to the raw line:
a leading `[`, at least one non-`]` character, the first `]`, then only
whitespace to the end. -/
def sectionHeaderMatch (l : List Char) : Option (List Char) :=
  match l with
  | c :: rest =>
    if c = '[' then
      let name := rest.takeWhile fun c => !(c = ']')
      match rest.dropWhile fun c => !(c = ']') with
      | ']' :: r3 =>
        if name.isEmpty then none
        else if (r3.dropWhile pyIsSpace).isEmpty then some name else none
      | _ => none
    else none
  | [] => none

/-- `FILTER_DECL` regex `^filter:\s*(.+)$`, applied to the stripped line.
The regex matches exactly when something follows `filter:`; the source
strips the captured group before storing, so the stripped expression is
returned directly. -/
def filterDeclMatch (stripped : List Char) : Option (List Char) :=
  if stripped.take 7 = "filter:".data then
    let after := stripped.drop 7
    if after.isEmpty then none else some (pyStrip after)
  else none

/-- `DESCRIPTION_DECL` regex `^description:\s*(.+)$` on the stripped line. -/
def descriptionDeclMatch (stripped : List Char) : Option (List Char) :=
  if stripped.take 12 = "description:".data then
    let after := stripped.drop 12
    if after.isEmpty then none else some (pyStrip after)
  else none

/-- `VARIABLE_DECL` regex `^(\w+)\s*=\s*(.+)$` on the stripped line,
returning the name and the (still to be stripped) right-hand side.
Backtracking of the greedy `\w+` never helps: a shorter word prefix is
followed by a word character, which is neither whitespace nor `=`. -/
def variableDeclMatch (stripped : List Char) : Option (String × List Char) :=
  let w := stripped.takeWhile isWordChar
  let r2 := (stripped.dropWhile isWordChar).dropWhile pyIsSpace
  if w.isEmpty then none
  else
    match r2 with
    | '=' :: r3 => if r3.isEmpty then none else some (w.asString, r3)
    | _ => none

/-- The line loop of `parse_sections` from `section_engine.py`,
parametrised over the expression parse function `pe` (the absent
`expr_parser.parse`): state is (remaining lines, line number, global
variables, finished sections, current section).  Branch order is the
source's: comment/blank skip, section header, filter, description,
variable declaration, unexpected content. -/
def parse_sections_go (pe : String → Except ExprLang.ExprError ExprLang.Expr) :
    List (List Char) → ℕ → List (String × String) → List Section →
    Option Section → Except SectionParseError SectionConfig
  | [], _, gvars, sections, cur =>
    match cur with
    | some s =>
      if s.filter_expr = "" then
        .error ⟨"Section [" ++ s.name ++ "] has no filter", s.line_number, ""⟩
      else .ok ⟨gvars, sections ++ [s]⟩
    | none => .ok ⟨gvars, sections⟩
  | line :: rest, n, gvars, sections, cur =>
    if isCommentLine line || isBlankLine line then
      parse_sections_go pe rest (n+1) gvars sections cur
    else
      match sectionHeaderMatch line with
      | some rawName =>
        match cur with
        | some s =>
          if s.filter_expr = "" then
            .error ⟨"Section [" ++ s.name ++ "] has no filter", s.line_number, ""⟩
          else
            parse_sections_go pe rest (n+1) gvars (sections ++ [s])
              (some ⟨(pyStrip rawName).asString, "", none, [], none, n⟩)
        | none =>
          parse_sections_go pe rest (n+1) gvars sections
            (some ⟨(pyStrip rawName).asString, "", none, [], none, n⟩)
      | none =>
        let stripped := pyStrip line
        match filterDeclMatch stripped with
        | some fexpr =>
          match cur with
          | none => .error ⟨"filter: found outside of a section", n, line.asString⟩
          | some s =>
            match pe fexpr.asString with
            | .error _ => .error ⟨"Invalid filter expression", n, line.asString⟩
            | .ok ast =>
              parse_sections_go pe rest (n+1) gvars sections
                (some { s with filter_expr := fexpr.asString,
                               filter_ast := some ast })
        | none =>
          match descriptionDeclMatch stripped with
          | some desc =>
            match cur with
            | none =>
              .error ⟨"description: found outside of a section", n, line.asString⟩
            | some s =>
              parse_sections_go pe rest (n+1) gvars sections
                (some { s with description := some desc.asString })
          | none =>
            match variableDeclMatch stripped with
            | some (vname, vexprRaw) =>
              let vexpr := (pyStrip vexprRaw).asString
              match pe vexpr with
              | .error _ =>
                .error ⟨"Invalid expression for variable '" ++ vname ++ "'",
                  n, line.asString⟩
              | .ok _ =>
                match cur with
                | none =>
                  parse_sections_go pe rest (n+1) (setAssoc gvars vname vexpr)
                    sections none
                | some s =>
                  parse_sections_go pe rest (n+1) gvars sections
                    (some { s with vars := setAssoc s.vars vname vexpr })
            | none =>
              .error ⟨"Unexpected content: " ++ (stripped.take 50).asString,
                n, line.asString⟩

/-- `parse_sections` from `section_engine.py`: split on newlines and run
the line loop from line 1 with empty state. -/
def parse_sections (pe : String → Except ExprLang.ExprError ExprLang.Expr)
    (text : String) : Except SectionParseError SectionConfig :=
  parse_sections_go pe (splitLines text.data) 1 [] [] none

/-- `evaluate_variables` from `section_engine.py`: evaluate the expressions
in declaration order, each seeing the previously computed values; a failed
evaluation sets the variable to the absent marker (`None`) and evaluation
continues. -/
def evaluate_variables (pe : String → Except ExprLang.ExprError ExprLang.Expr)
    (variable_exprs : List (String × String))
    (transactions : List ExprLang.Transaction) (num_months : ℤ)
    (existing_vars : List (String × ExprLang.Value)) :
    List (String × ExprLang.Value) :=
  variable_exprs.foldl
    (fun result p =>
      let ctx := ExprLang.create_context transactions num_months result
      match (do
          let ast ← pe p.2
          ExprLang.evalExpr ctx ast : Except ExprLang.ExprError ExprLang.Value) with
      | .ok v => setAssoc result p.1 v
      | .error _ => setAssoc result p.1 ExprLang.Value.none)
    existing_vars

/-- `evaluate_section_filter` from `section_engine.py`: evaluate the
section-local variables seeded with the globals, then the filter; a result
coercing to true means membership, an evaluation error is caught and means
no membership. -/
def evaluate_section_filter
    (pe : String → Except ExprLang.ExprError ExprLang.Expr) (s : Section)
    (transactions : List ExprLang.Transaction) (num_months : ℤ)
    (global_vars : List (String × ExprLang.Value)) : Bool :=
  let vs :=
    if s.vars.isEmpty then global_vars
    else evaluate_variables pe s.vars transactions num_months global_vars
  let ctx := ExprLang.create_context transactions num_months vs
  match s.filter_ast with
  | some a =>
    match ExprLang.evalExpr ctx a with
    | .ok v => ExprLang.pyTruthy v
    | .error _ => false
  | none =>
    match (do
        let ast ← pe s.filter_expr
        ExprLang.evalExpr ctx ast : Except ExprLang.ExprError ExprLang.Value) with
    | .ok v => ExprLang.pyTruthy v
    | .error _ => false

/-- A merchant group record (`merchant_groups` entries of the source, read
with `.get('transactions', [])`). -/
structure MerchantGroup where
  merchant : String := ""
  category : String := ""
  subcategory : String := ""
  transactions : List ExprLang.Transaction := []

/-- `classify_merchants` from `section_engine.py`: initialise one empty
list per section name, then for each merchant evaluate the globals once
and append the merchant to every section whose filter matches. -/
def classify_merchants
    (pe : String → Except ExprLang.ExprError ExprLang.Expr)
    (config : SectionConfig) (merchant_groups : List MerchantGroup)
    (num_months : ℤ) : List (String × List MerchantGroup) :=
  let init := config.sections.foldl (fun acc s => setAssoc acc s.name []) []
  merchant_groups.foldl
    (fun result m =>
      let global_vars :=
        evaluate_variables pe config.global_variables m.transactions
          num_months []
      config.sections.foldl
        (fun result2 s =>
          if evaluate_section_filter pe s m.transactions num_months
              global_vars then
            appendAssoc result2 s.name m
          else result2)
        result)
    init

/-- Statement helper: the variable environment a section's filter runs in,
mirroring the local-variable step of `evaluate_section_filter`. -/
def sectionVariables (pe : String → Except ExprLang.ExprError ExprLang.Expr)
    (s : Section) (transactions : List ExprLang.Transaction) (num_months : ℤ)
    (global_vars : List (String × ExprLang.Value)) :
    List (String × ExprLang.Value) :=
  if s.vars.isEmpty then global_vars
  else evaluate_variables pe s.vars transactions num_months global_vars

theorem lookup_cons {α : Type} (l : List (String × α)) (k k' : String)
    (v : α) :
    List.lookup k' ((k, v) :: l) = if k' = k then some v else List.lookup k' l := by
  by_cases h : k' = k
  · subst h
    simp [List.lookup]
  · have hb : (k' == k) = false := beq_eq_false_iff_ne.2 h
    simp [List.lookup, hb, h]

theorem lookup_setAssoc_self {α : Type} (l : List (String × α)) (k : String)
    (v : α) : (setAssoc l k v).lookup k = some v := by
  induction l with
  | nil => simp [setAssoc, lookup_cons]
  | cons p rest ih =>
    obtain ⟨k', v'⟩ := p
    by_cases h : k' = k
    · simp [setAssoc, h, lookup_cons]
    · simp [setAssoc, h, lookup_cons, Ne.symm h, ih]

theorem lookup_setAssoc_ne {α : Type} (l : List (String × α)) (k k' : String)
    (v : α) (h : k' ≠ k) : (setAssoc l k v).lookup k' = l.lookup k' := by
  induction l with
  | nil => simp only [setAssoc, lookup_cons, if_neg h]
  | cons p rest ih =>
    obtain ⟨a, b⟩ := p
    by_cases ha : a = k
    · subst ha
      simp [setAssoc, lookup_cons, h]
    · simp [setAssoc, ha, lookup_cons, ih]

theorem lookup_appendAssoc_self {α : Type} (l : List (String × List α))
    (k : String) (x : α) :
    (appendAssoc l k x).lookup k = some ((l.lookup k).getD [] ++ [x]) := by
  induction l with
  | nil => simp [appendAssoc, lookup_cons, List.lookup]
  | cons p rest ih =>
    obtain ⟨a, b⟩ := p
    by_cases ha : a = k
    · subst ha
      simp [appendAssoc, lookup_cons]
    · simp [appendAssoc, ha, lookup_cons, Ne.symm ha, ih]

theorem lookup_appendAssoc_ne {α : Type} (l : List (String × List α))
    (k k' : String) (x : α) (h : k' ≠ k) :
    (appendAssoc l k x).lookup k' = l.lookup k' := by
  induction l with
  | nil => simp only [appendAssoc, lookup_cons, if_neg h]
  | cons p rest ih =>
    obtain ⟨a, b⟩ := p
    by_cases ha : a = k
    · subst ha
      simp [appendAssoc, lookup_cons, h]
    · simp [appendAssoc, ha, lookup_cons, ih]

theorem lookup_init_notmem (ss : List Section)
    (acc : List (String × List MerchantGroup)) (name : String)
    (h : name ∉ ss.map Section.name) :
    (ss.foldl (fun acc s => setAssoc acc s.name []) acc).lookup name
      = acc.lookup name := by
  induction ss generalizing acc with
  | nil => rfl
  | cons a t ih =>
    simp only [List.map_cons, List.mem_cons, not_or] at h
    rw [List.foldl_cons, ih _ h.2, lookup_setAssoc_ne _ _ _ _ h.1]

theorem lookup_init_mem (ss : List Section)
    (acc : List (String × List MerchantGroup)) (s : Section) (hs : s ∈ ss)
    (hnd : (ss.map Section.name).Nodup) :
    (ss.foldl (fun acc s' => setAssoc acc s'.name []) acc).lookup s.name
      = some [] := by
  induction ss generalizing acc with
  | nil => simp at hs
  | cons a t ih =>
    rw [List.foldl_cons]
    have hnd' : (a.name :: t.map Section.name).Nodup := by simpa using hnd
    rcases List.mem_cons.1 hs with rfl | hmem
    · rw [lookup_init_notmem _ _ _ (List.nodup_cons.1 hnd').1,
        lookup_setAssoc_self]
    · exact ih _ hmem (List.nodup_cons.1 hnd').2

theorem lookup_sections_fold_notmem (p : Section → Bool) (m : MerchantGroup)
    (ss : List Section) (acc : List (String × List MerchantGroup))
    (name : String) (h : name ∉ ss.map Section.name) :
    (ss.foldl (fun acc2 s => if p s then appendAssoc acc2 s.name m else acc2)
        acc).lookup name = acc.lookup name := by
  induction ss generalizing acc with
  | nil => rfl
  | cons a t ih =>
    simp only [List.map_cons, List.mem_cons, not_or] at h
    rw [List.foldl_cons, ih _ h.2]
    cases hp : p a
    · simp
    · simp [lookup_appendAssoc_ne _ _ _ _ h.1]

theorem lookup_sections_fold_mem (p : Section → Bool) (m : MerchantGroup)
    (ss : List Section) (acc : List (String × List MerchantGroup))
    (s : Section) (hs : s ∈ ss) (hnd : (ss.map Section.name).Nodup)
    (xs : List MerchantGroup) (hacc : acc.lookup s.name = some xs) :
    (ss.foldl (fun acc2 s' => if p s' then appendAssoc acc2 s'.name m else acc2)
        acc).lookup s.name = some (xs ++ if p s then [m] else []) := by
  induction ss generalizing acc xs with
  | nil => simp at hs
  | cons a t ih =>
    rw [List.foldl_cons]
    have hnd' : (a.name :: t.map Section.name).Nodup := by simpa using hnd
    rcases List.mem_cons.1 hs with rfl | hmem
    · rw [lookup_sections_fold_notmem _ _ _ _ _ (List.nodup_cons.1 hnd').1]
      cases hp : p s
      · simpa [hp] using hacc
      · simp [hp, lookup_appendAssoc_self, hacc]
    · cases hp : p a
      · exact ih _ hmem (List.nodup_cons.1 hnd').2 _ (by simpa [hp] using hacc)
      · refine ih _ hmem (List.nodup_cons.1 hnd').2 _ ?_
        have hne : s.name ≠ a.name := by
          intro hEq
          exact (List.nodup_cons.1 hnd').1 (hEq ▸ (List.mem_map.2 ⟨s, hmem, rfl⟩))
        simp [hp, lookup_appendAssoc_ne _ _ _ _ hne, hacc]

theorem lookup_groups_fold (ss : List Section)
    (q : MerchantGroup → Section → Bool) (groups : List MerchantGroup)
    (acc : List (String × List MerchantGroup)) (s : Section) (hs : s ∈ ss)
    (hnd : (ss.map Section.name).Nodup) (xs : List MerchantGroup)
    (hacc : acc.lookup s.name = some xs) :
    (groups.foldl
        (fun result m =>
          ss.foldl
            (fun r2 s' => if q m s' then appendAssoc r2 s'.name m else r2)
            result)
        acc).lookup s.name
      = some (xs ++ groups.filter fun m => q m s) := by
  induction groups generalizing acc xs with
  | nil => simpa using hacc
  | cons m rest ih =>
    rw [List.foldl_cons]
    have h1 := lookup_sections_fold_mem (q m) m ss acc s hs hnd xs hacc
    have h2 := ih _ _ h1
    rw [h2]
    cases hq : q m s <;> simp [hq, List.filter_cons]

/-- C4: a section filter evaluates to membership exactly when its
pre-parsed filter tree evaluates without an expression error to a value
coercing to true; an evaluation error is caught and yields `false`, never
propagated, so `classify_merchants` completes over every section for every
merchant group: with distinct section names, every section's entry in the
result is exactly the list of merchants whose filter evaluation succeeded
truthily. -/
theorem evaluate_section_filter_spec
    (pe : String → Except ExprLang.ExprError ExprLang.Expr) (s : Section)
    (txns : List ExprLang.Transaction) (nm : ℤ)
    (gvars : List (String × ExprLang.Value)) (a : ExprLang.Expr)
    (ha : s.filter_ast = some a) :
    (evaluate_section_filter pe s txns nm gvars = true ↔
      ∃ v, ExprLang.evalExpr
            (ExprLang.create_context txns nm (sectionVariables pe s txns nm gvars)) a
          = .ok v ∧ ExprLang.pyTruthy v = true)
    ∧ (∀ e, ExprLang.evalExpr
            (ExprLang.create_context txns nm (sectionVariables pe s txns nm gvars)) a
          = .error e →
        evaluate_section_filter pe s txns nm gvars = false)
    ∧ (∀ (config : SectionConfig) (groups : List MerchantGroup) (nm' : ℤ),
        (config.sections.map Section.name).Nodup →
        ∀ s' ∈ config.sections,
          (classify_merchants pe config groups nm').lookup s'.name
            = some (groups.filter fun m =>
                evaluate_section_filter pe s' m.transactions nm'
                  (evaluate_variables pe config.global_variables
                    m.transactions nm' []))) := by
  have key : evaluate_section_filter pe s txns nm gvars
      = (match ExprLang.evalExpr
            (ExprLang.create_context txns nm (sectionVariables pe s txns nm gvars)) a with
        | .ok v => ExprLang.pyTruthy v
        | .error _ => false) := by
    simp only [evaluate_section_filter, sectionVariables, ha]
  refine ⟨?_, ?_, ?_⟩
  · rw [key]
    cases h : ExprLang.evalExpr
        (ExprLang.create_context txns nm (sectionVariables pe s txns nm gvars)) a with
    | ok v => simp
    | error e => simp
  · intro e he
    rw [key, he]
  · intro config groups nm' hnd s' hs'
    simp only [classify_merchants]
    have hinit : ((config.sections.foldl
        (fun acc s0 => setAssoc acc s0.name []) []).lookup s'.name) = some [] :=
      lookup_init_mem config.sections [] s' hs' hnd
    simpa using
      lookup_groups_fold config.sections
        (fun m s0 => evaluate_section_filter pe s0 m.transactions nm'
          (evaluate_variables pe config.global_variables m.transactions nm' []))
        groups _ s' hs' hnd [] hinit

/-- A trivial expression parse function used by concrete section-engine
inputs (the parametrised stand-in for the absent `expr_parser.parse`). -/
def wParse : String → Except ExprLang.ExprError ExprLang.Expr :=
  fun _ => .ok (.boolLit true)

/-- The concrete section used by the C4 witness. -/
def wSection : Section :=
  { name := "Total", filter_expr := "True",
    filter_ast := some (.boolLit true), vars := [], description := none,
    line_number := 1 }

/-- Witness for C4 at the concrete section `[Total]` with filter `True`. -/
theorem evaluate_section_filter_spec_witness :
    wSection.filter_ast = some (.boolLit true)
    ∧ ((evaluate_section_filter wParse wSection [] 12 [] = true ↔
        ∃ v, ExprLang.evalExpr
              (ExprLang.create_context [] 12
                (sectionVariables wParse wSection [] 12 [])) (.boolLit true)
            = .ok v ∧ ExprLang.pyTruthy v = true)
      ∧ (∀ e, ExprLang.evalExpr
              (ExprLang.create_context [] 12
                (sectionVariables wParse wSection [] 12 [])) (.boolLit true)
            = .error e →
          evaluate_section_filter wParse wSection [] 12 [] = false)
      ∧ (∀ (config : SectionConfig) (groups : List MerchantGroup) (nm' : ℤ),
          (config.sections.map Section.name).Nodup →
          ∀ s' ∈ config.sections,
            (classify_merchants wParse config groups nm').lookup s'.name
              = some (groups.filter fun m =>
                  evaluate_section_filter wParse s' m.transactions nm'
                    (evaluate_variables wParse config.global_variables
                      m.transactions nm' [])))) :=
  ⟨rfl, evaluate_section_filter_spec wParse wSection [] 12 [] (.boolLit true) rfl⟩

end SectionEngine

namespace Modifier

/-!
Modelled from the spec: the inline modifier module (`modifier_parser`,
exercised by `tests/test_modifier_parser.py`) is absent from the sources.
The definitions below follow the specification's contract: split a
merchant-matching pattern into a residual pattern and trailing bracketed
amount/date modifiers, treating a bracket group as a modifier only when it
matches the specific amount/date modifier grammar (`[amount OP N]`,
`[amount:MIN-MAX]`, `[date=YYYY-MM-DD]`, `[date:START..END]`,
`[date:lastNdays]`, `[month=N]`), leaving other bracket groups — such as
regex character classes — untouched in the pattern; a bracket group that
starts like a modifier but is malformed is a parse error.
-/

/-- An amount condition: comparison operator with value, or `:` range with
min/max. -/
structure AmountCondition where
  operator : String
  value : ℚ := 0
  min_value : Option ℚ := none
  max_value : Option ℚ := none
deriving Repr, DecidableEq

/-- A date condition: `=` exact date, `:` range, `relative` last-N-days
window, or `month` match. -/
structure DateCondition where
  operator : String
  value : Option ExprLang.Date := none
  start_date : Option ExprLang.Date := none
  end_date : Option ExprLang.Date := none
  relative_days : ℕ := 0
  month : ℕ := 0
deriving Repr, DecidableEq

/-- The result of modifier parsing: the residual pattern and the
AND-combined amount and date conditions. -/
structure ParsedPattern where
  regex_pattern : String
  amount_conditions : List AmountCondition := []
  date_conditions : List DateCondition := []
deriving Repr, DecidableEq

/-- Parse an entire character list as a decimal number `\d+(\.\d*)?`. -/
def parseNumAll (l : List Char) : Option ℚ :=
  let d1 := l.takeWhile Char.isDigit
  let r := l.dropWhile Char.isDigit
  if d1.isEmpty then none
  else
    match r with
    | [] => some (ratOfDigits d1 [])
    | '.' :: r2 =>
      let d2 := r2.takeWhile Char.isDigit
      if (r2.dropWhile Char.isDigit).isEmpty then some (ratOfDigits d1 d2)
      else none
    | _ => none

/-- Parse exactly `YYYY-MM-DD` (4-2-2 digits) with month 1–12 and
day 1–31. -/
def parseDateAll (l : List Char) : Option ExprLang.Date :=
  match l with
  | [y1, y2, y3, y4, '-', m1, m2, '-', d1, d2] =>
    if [y1, y2, y3, y4, m1, m2, d1, d2].all Char.isDigit then
      let y := digitsToNat [y1, y2, y3, y4]
      let m := digitsToNat [m1, m2]
      let d := digitsToNat [d1, d2]
      if 1 ≤ m ∧ m ≤ 12 ∧ 1 ≤ d ∧ d ≤ 31 then some ⟨(y : ℤ), m, d⟩ else none
    else none
  | _ => none

/-- One of the comparison operators `>= <= > < =`, longest first. -/
def takeAmountOp : List Char → Option (String × List Char)
  | '>' :: '=' :: r => some (">=", r)
  | '<' :: '=' :: r => some ("<=", r)
  | '>' :: r => some (">", r)
  | '<' :: r => some ("<", r)
  | '=' :: r => some ("=", r)
  | _ => none

/-- Split a character list at the first occurrence of a separator list. -/
def splitOnceAux (sep : List Char) (acc : List Char) :
    List Char → Option (List Char × List Char)
  | [] => none
  | c :: rest =>
    if (c :: rest).take sep.length = sep then
      some (acc.reverse, (c :: rest).drop sep.length)
    else splitOnceAux sep (c :: acc) rest

/-- See `splitOnceAux`. -/
def splitOnce (sep l : List Char) : Option (List Char × List Char) :=
  splitOnceAux sep [] l

/-- Interpret the inside of one trailing bracket group.  `.ok none` means
the group is not modifier material and stays in the pattern; `.ok (some c)`
is a parsed condition; `.error` is a malformed modifier
(`ModifierParseError`). -/
def parseModifierGroup (content : List Char) :
    Except String (Option (AmountCondition ⊕ DateCondition)) :=
  if content.take 6 = "amount".data then
    let rest := content.drop 6
    match rest with
    | ':' :: r =>
      match splitOnce ['-'] r with
      | some (lo, hi) =>
        match parseNumAll lo, parseNumAll hi with
        | some a, some b =>
          .ok (some (.inl { operator := ":", min_value := some a,
                            max_value := some b }))
        | _, _ => .error "Invalid amount range"
      | none => .error "Invalid amount range"
    | _ =>
      match takeAmountOp rest with
      | some (op, r) =>
        match parseNumAll r with
        | some v => .ok (some (.inl { operator := op, value := v }))
        | none => .error "Invalid amount value"
      | none => .error "Invalid amount modifier"
  else if content.take 4 = "date".data then
    let rest := content.drop 4
    match rest with
    | '=' :: r =>
      match parseDateAll r with
      | some d => .ok (some (.inr { operator := "=", value := some d }))
      | none => .error "Invalid date"
    | ':' :: r =>
      if r.take 4 = "last".data ∧ (r.reverse.take 4) = "days".data.reverse then
        match parseNumAll ((r.drop 4).take ((r.drop 4).length - 4)) with
        | some n =>
          .ok (some (.inr { operator := "relative",
                            relative_days := (pyInt n).toNat }))
        | none => .error "Invalid relative date"
      else
        match splitOnce ['.', '.'] r with
        | some (a, b) =>
          match parseDateAll a, parseDateAll b with
          | some d1, some d2 =>
            .ok (some (.inr { operator := ":", start_date := some d1,
                              end_date := some d2 }))
          | _, _ => .error "Invalid date range"
        | none => .error "Invalid date modifier"
    | _ => .error "Invalid date modifier"
  else if content.take 6 = "month=".data then
    match parseNumAll (content.drop 6) with
    | some n =>
      if 1 ≤ n ∧ n ≤ 12 ∧ n.den = 1 then
        .ok (some (.inr { operator := "month", month := (pyInt n).toNat }))
      else .error "Invalid month"
    | none => .error "Invalid month"
  else .ok none

/-- Split off the last bracket group of a pattern ending in `]`: returns
the part before the `[`, and the group content. -/
def splitLastGroup (l : List Char) : Option (List Char × List Char) :=
  match l.reverse with
  | ']' :: rest =>
    let contentRev := rest.takeWhile fun c => !(c = '[')
    match rest.dropWhile fun c => !(c = '[') with
    | '[' :: baseRev => some (baseRev.reverse, contentRev.reverse)
    | _ => none
  | _ => none

/-- The trailing-group loop of `parse_pattern_with_modifiers`: while the
pattern ends in a bracket group that parses as a modifier, strip it
(collecting conditions right to left); stop at the first trailing group
that is not modifier material. -/
def stripModifiers (fuel : ℕ) (l : List Char) (amounts : List AmountCondition)
    (dates : List DateCondition) : Except String ParsedPattern :=
  match fuel with
  | 0 => .ok ⟨l.asString, amounts, dates⟩
  | fuel + 1 =>
    match splitLastGroup l with
    | none => .ok ⟨l.asString, amounts, dates⟩
    | some (base, content) =>
      match parseModifierGroup content with
      | .error e => .error e
      | .ok none => .ok ⟨l.asString, amounts, dates⟩
      | .ok (some (.inl a)) => stripModifiers fuel base (a :: amounts) dates
      | .ok (some (.inr d)) => stripModifiers fuel base amounts (d :: dates)

/-- Modelled from the spec: `parse_pattern_with_modifiers` — split a
pattern into a residual regex pattern and its trailing amount/date
modifier conditions (in left-to-right order). -/
def parse_pattern_with_modifiers (pattern : String) :
    Except String ParsedPattern :=
  stripModifiers pattern.data.length pattern.data [] []

/-- C8: a trailing bracket group is treated as a modifier only when it
matches the amount/date modifier grammar — `COSTCO[amount>200]` parses to
residual pattern `COSTCO` with the single amount condition `> 200`, while
`[A-Z]+COSTCO` parses to itself with no amount and no date conditions. -/
theorem parse_pattern_modifier_grammar :
    parse_pattern_with_modifiers "COSTCO[amount>200]"
        = .ok { regex_pattern := "COSTCO",
                amount_conditions := [{ operator := ">", value := 200 }],
                date_conditions := [] }
    ∧ parse_pattern_with_modifiers "[A-Z]+COSTCO"
        = .ok { regex_pattern := "[A-Z]+COSTCO", amount_conditions := [],
                date_conditions := [] } := by
  constructor
  · have hd0 : digitsToNat ['2', '0', '0'] = 200 := rfl
    have hd1 : digitsToNat ([] : List Char) = 0 := rfl
    have hv : ratOfDigits ['2', '0', '0'] [] = 200 := by
      unfold ratOfDigits
      rw [hd0, hd1]
      norm_num
    have hparse : parse_pattern_with_modifiers "COSTCO[amount>200]"
        = .ok { regex_pattern := "COSTCO",
                amount_conditions := [{ operator := ">",
                                        value := ratOfDigits ['2', '0', '0'] [] }],
                date_conditions := [] } := rfl
    rw [hparse, hv]
  · rfl

end Modifier

namespace SectionEngine

/-- A line that, inside a section block, can never provide the block's
filter: a comment or blank line, or a line that is no section header and no
filter declaration and is either a description declaration or a variable
declaration whose expression `pe` accepts. -/
def keepsFilterlessBlock (pe : String → Except ExprLang.ExprError ExprLang.Expr)
    (l : List Char) : Bool :=
  isCommentLine l || isBlankLine l ||
  ((sectionHeaderMatch l).isNone &&
   (filterDeclMatch (pyStrip l)).isNone &&
   ((descriptionDeclMatch (pyStrip l)).isSome ||
    (match variableDeclMatch (pyStrip l) with
     | some (_, vexprRaw) =>
       (match pe (pyStrip vexprRaw).asString with
        | .ok _ => true
        | .error _ => false)
     | none => false)))

/-- The stripped line is a prefix of the line with leading whitespace
removed. -/
theorem pyStrip_prefix (l : List Char) :
    pyStrip l <+: l.dropWhile pyIsSpace :=
  List.rdropWhile_prefix pyIsSpace (l.dropWhile pyIsSpace)

/-- A section-header line is neither a comment nor blank. -/
theorem header_line_facts (hdr name : List Char)
    (h : sectionHeaderMatch hdr = some name) :
    isCommentLine hdr = false ∧ isBlankLine hdr = false := by
  cases hdr with
  | nil => simp [sectionHeaderMatch] at h
  | cons c t =>
    by_cases hc : c = '['
    · subst hc
      have hsp : pyIsSpace '[' = false := by decide
      constructor
      · simp [isCommentLine, List.dropWhile_cons, hsp]
      · simp [isBlankLine, List.dropWhile_cons, hsp]
    · simp [sectionHeaderMatch, hc] at h

/-- A line whose stripped form is a filter declaration is neither a
comment, nor blank, nor a section header. -/
theorem filter_line_facts (l f : List Char)
    (h : filterDeclMatch (pyStrip l) = some f) :
    isCommentLine l = false ∧ isBlankLine l = false ∧
    sectionHeaderMatch l = none := by
  have htake : (pyStrip l).take 7 = "filter:".data := by
    by_cases ht : (pyStrip l).take 7 = "filter:".data
    · exact ht
    · simp [filterDeclMatch, ht] at h
  have hhead : (pyStrip l).head? = some 'f' := by
    cases hps : pyStrip l with
    | nil => rw [hps] at htake; simp at htake
    | cons a t =>
      rw [hps] at htake
      simp only [List.take_succ_cons] at htake
      have : a = 'f' := by
        have := List.head_eq_of_cons_eq htake
        simpa using this
      simp [this]
  obtain ⟨tail, htail⟩ := pyStrip_prefix l
  have hdrop : (l.dropWhile pyIsSpace).head? = some 'f' := by
    rw [← htail]
    cases hps : pyStrip l with
    | nil => rw [hps] at hhead; simp at hhead
    | cons a t =>
      rw [hps] at hhead
      simpa using hhead
  refine ⟨?_, ?_, ?_⟩
  · simp only [isCommentLine, hdrop]
    decide
  · simp only [isBlankLine]
    cases hdw : List.dropWhile pyIsSpace l with
    | nil =>
      rw [hdw] at hdrop
      simp at hdrop
    | cons a t => simp
  · cases l with
    | nil => rfl
    | cons c t =>
      by_cases hc : c = '['
      · subst hc
        have hsp : pyIsSpace '[' = false := by decide
        rw [List.dropWhile_cons, hsp] at hdrop
        simp at hdrop
      · simp [sectionHeaderMatch, hc]

/-- Processing the body of a filterless section block — comments, blanks,
descriptions and accepted variable declarations — can never provide a
filter, so when the block ends (at the end of input or at the next section
header) parsing raises the section-has-no-filter error naming that section
and its header line, from every parser state. -/
theorem go_filterless_block (pe : String → Except ExprLang.ExprError ExprLang.Expr)
    (body : List (List Char)) :
    ∀ (tail : List (List Char)) (n : ℕ) (gvars : List (String × String))
      (sections : List Section) (s : Section),
      s.filter_expr = "" →
      (∀ l ∈ body, keepsFilterlessBlock pe l = true) →
      (tail = [] ∨ ∃ h2 t2 nm2, tail = h2 :: t2 ∧ sectionHeaderMatch h2 = some nm2) →
      parse_sections_go pe (body ++ tail) n gvars sections (some s)
        = .error ⟨"Section [" ++ s.name ++ "] has no filter",
            s.line_number, ""⟩ := by
  induction body with
  | nil =>
    intro tail n gvars sections s hf _ htail
    rcases htail with rfl | ⟨h2, t2, nm2, rfl, hh2⟩
    · simp [parse_sections_go, hf]
    · have hcbf := header_line_facts h2 nm2 hh2
      simp only [List.nil_append, parse_sections_go]
      rw [if_neg (by simp [hcbf.1, hcbf.2])]
      simp only [hh2]
      rw [if_pos hf]
  | cons line rest ih =>
    intro tail n gvars sections s hf hkeep htail
    have hl := hkeep line (by simp)
    have hrest : ∀ l ∈ rest, keepsFilterlessBlock pe l = true :=
      fun l h => hkeep l (by simp [h])
    rw [List.cons_append]
    simp only [parse_sections_go]
    by_cases hcb : (isCommentLine line || isBlankLine line) = true
    · rw [if_pos hcb]
      exact ih tail (n+1) gvars sections s hf hrest htail
    · rw [if_neg hcb]
      simp only [Bool.or_eq_true, not_or, Bool.not_eq_true] at hcb
      cases hhdr : sectionHeaderMatch line with
      | some nm =>
        simp [keepsFilterlessBlock, hhdr, hcb.1, hcb.2] at hl
      | none =>
        cases hflt : filterDeclMatch (pyStrip line) with
        | some f =>
          simp [keepsFilterlessBlock, hhdr, hflt, hcb.1, hcb.2] at hl
        | none =>
          simp only [hhdr, hflt]
          cases hdesc : descriptionDeclMatch (pyStrip line) with
          | some d =>
            simp only [hdesc]
            exact ih tail (n+1) gvars sections _ hf hrest htail
          | none =>
            cases hvar : variableDeclMatch (pyStrip line) with
            | none =>
              simp [keepsFilterlessBlock, hhdr, hflt, hdesc, hvar,
                hcb.1, hcb.2] at hl
            | some p =>
              obtain ⟨vname, vexprRaw⟩ := p
              cases hpe : pe (pyStrip vexprRaw).asString with
              | error e =>
                simp [keepsFilterlessBlock, hhdr, hflt, hdesc, hvar, hpe,
                  hcb.1, hcb.2] at hl
              | ok ast =>
                simp only [hdesc, hvar, hpe]
                exact ih tail (n+1) gvars sections _ hf hrest htail

/-- Inside a section block whose remaining lines contain no filter
declaration and no section header, parsing always ends in some error —
either at a malformed line, or at the block's end (next header or end of
input) because the section never received a filter. -/
theorem go_filterless_any (pe : String → Except ExprLang.ExprError ExprLang.Expr)
    (body : List (List Char)) :
    ∀ (tail : List (List Char)) (n : ℕ) (gvars : List (String × String))
      (sections : List Section) (s : Section),
      s.filter_expr = "" →
      (∀ l ∈ body, sectionHeaderMatch l = none ∧
        filterDeclMatch (pyStrip l) = none) →
      (tail = [] ∨ ∃ h2 t2 nm2, tail = h2 :: t2 ∧ sectionHeaderMatch h2 = some nm2) →
      ∃ e, parse_sections_go pe (body ++ tail) n gvars sections (some s)
        = .error e := by
  induction body with
  | nil =>
    intro tail n gvars sections s hf _ htail
    rcases htail with rfl | ⟨h2, t2, nm2, rfl, hh2⟩
    · exact ⟨⟨"Section [" ++ s.name ++ "] has no filter", s.line_number, ""⟩,
        by simp [parse_sections_go, hf]⟩
    · have hcbf := header_line_facts h2 nm2 hh2
      refine ⟨⟨"Section [" ++ s.name ++ "] has no filter", s.line_number, ""⟩, ?_⟩
      simp only [List.nil_append, parse_sections_go]
      rw [if_neg (by simp [hcbf.1, hcbf.2])]
      simp only [hh2]
      rw [if_pos hf]
  | cons line rest ih =>
    intro tail n gvars sections s hf hbody htail
    obtain ⟨hhdr, hflt⟩ := hbody line (by simp)
    have hrest : ∀ l ∈ rest, sectionHeaderMatch l = none ∧
        filterDeclMatch (pyStrip l) = none :=
      fun l h => hbody l (by simp [h])
    rw [List.cons_append]
    simp only [parse_sections_go]
    by_cases hcb : (isCommentLine line || isBlankLine line) = true
    · rw [if_pos hcb]
      exact ih tail (n+1) gvars sections s hf hrest htail
    · rw [if_neg hcb]
      simp only [hhdr, hflt]
      cases hdesc : descriptionDeclMatch (pyStrip line) with
      | some d =>
        simp only [hdesc]
        exact ih tail (n+1) gvars sections _ hf hrest htail
      | none =>
        simp only [hdesc]
        cases hvar : variableDeclMatch (pyStrip line) with
        | none =>
          simp only [hvar]
          exact ⟨_, rfl⟩
        | some p =>
          obtain ⟨vname, vexprRaw⟩ := p
          simp only [hvar]
          cases hpe : pe (pyStrip vexprRaw).asString with
          | error e =>
            simp only [hpe]
            exact ⟨_, rfl⟩
          | ok ast =>
            simp only [hpe]
            exact ih tail (n+1) gvars sections _ hf hrest htail

/-- For every input whose line list contains, anywhere, a section header
followed by no filter declaration up to the next header or the end of
input, the parser errors: the lines before the block either error on
their own or bring the parser — in whatever state — to the block, whose
section can never receive a filter. -/
theorem go_prefix_filterless (pe : String → Except ExprLang.ExprError ExprLang.Expr)
    (pre : List (List Char)) :
    ∀ (hdr : List Char) (body tail : List (List Char)) (name : List Char)
      (n : ℕ) (gvars : List (String × String)) (sections : List Section)
      (cur : Option Section),
      sectionHeaderMatch hdr = some name →
      (∀ l ∈ body, sectionHeaderMatch l = none ∧
        filterDeclMatch (pyStrip l) = none) →
      (tail = [] ∨ ∃ h2 t2 nm2, tail = h2 :: t2 ∧ sectionHeaderMatch h2 = some nm2) →
      ∃ e, parse_sections_go pe (pre ++ hdr :: (body ++ tail)) n gvars sections cur
        = .error e := by
  induction pre with
  | nil =>
    intro hdr body tail name n gvars sections cur hhdr hbody htail
    have hcbf := header_line_facts hdr name hhdr
    rw [List.nil_append]
    simp only [parse_sections_go]
    rw [if_neg (by simp [hcbf.1, hcbf.2])]
    simp only [hhdr]
    cases cur with
    | none =>
      exact go_filterless_any pe body tail (n+1) gvars sections
        ⟨(pyStrip name).asString, "", none, [], none, n⟩ rfl hbody htail
    | some s0 =>
      simp only []
      by_cases hs0 : s0.filter_expr = ""
      · rw [if_pos hs0]
        exact ⟨_, rfl⟩
      · rw [if_neg hs0]
        exact go_filterless_any pe body tail (n+1) gvars (sections ++ [s0])
          ⟨(pyStrip name).asString, "", none, [], none, n⟩ rfl hbody htail
  | cons line pre' ih =>
    intro hdr body tail name n gvars sections cur hhdr hbody htail
    rw [List.cons_append]
    simp only [parse_sections_go]
    by_cases hcb : (isCommentLine line || isBlankLine line) = true
    · rw [if_pos hcb]
      exact ih hdr body tail name (n+1) gvars sections cur hhdr hbody htail
    · rw [if_neg hcb]
      cases hhl : sectionHeaderMatch line with
      | some nm2 =>
        simp only [hhl]
        cases cur with
        | none => exact ih hdr body tail name (n+1) gvars sections _ hhdr hbody htail
        | some s0 =>
          simp only []
          by_cases hs0 : s0.filter_expr = ""
          · rw [if_pos hs0]
            exact ⟨_, rfl⟩
          · rw [if_neg hs0]
            exact ih hdr body tail name (n+1) gvars (sections ++ [s0]) _ hhdr hbody htail
      | none =>
        simp only [hhl]
        cases hfl : filterDeclMatch (pyStrip line) with
        | some f =>
          simp only [hfl]
          cases cur with
          | none => exact ⟨_, rfl⟩
          | some s0 =>
            cases hpe : pe f.asString with
            | error e =>
              simp only [hpe]
              exact ⟨_, rfl⟩
            | ok ast =>
              simp only [hpe]
              exact ih hdr body tail name (n+1) gvars sections _ hhdr hbody htail
        | none =>
          simp only [hfl]
          cases hdesc : descriptionDeclMatch (pyStrip line) with
          | some d =>
            simp only [hdesc]
            cases cur with
            | none => exact ⟨_, rfl⟩
            | some s0 =>
              exact ih hdr body tail name (n+1) gvars sections _ hhdr hbody htail
          | none =>
            simp only [hdesc]
            cases hvar : variableDeclMatch (pyStrip line) with
            | some p =>
              obtain ⟨vn, raw⟩ := p
              simp only [hvar]
              cases hpe : pe (pyStrip raw).asString with
              | error e =>
                simp only [hpe]
                exact ⟨_, rfl⟩
              | ok ast =>
                simp only [hpe]
                cases cur with
                | none => exact ih hdr body tail name (n+1) _ sections _ hhdr hbody htail
                | some s0 => exact ih hdr body tail name (n+1) gvars sections _ hhdr hbody htail
            | none =>
              simp only [hvar]
              exact ⟨_, rfl⟩

/-- Every section of a successfully parsed configuration has a nonempty
filter expression (the acceptance invariant of `parse_sections_go`). -/
theorem go_sections_valid (pe : String → Except ExprLang.ExprError ExprLang.Expr)
    (lines : List (List Char)) :
    ∀ (n : ℕ) (gvars : List (String × String)) (sections : List Section)
      (cur : Option Section) (cfg : SectionConfig),
      (∀ s ∈ sections, s.filter_expr ≠ "") →
      parse_sections_go pe lines n gvars sections cur = .ok cfg →
      ∀ s ∈ cfg.sections, s.filter_expr ≠ "" := by
  induction lines with
  | nil =>
    intro n gvars sections cur cfg hinv h s hs
    cases cur with
    | none =>
      simp only [parse_sections_go, Except.ok.injEq] at h
      subst h
      exact hinv s hs
    | some s0 =>
      simp only [parse_sections_go] at h
      split at h
      · exact absurd h (by simp)
      · rename_i hne
        simp only [Except.ok.injEq] at h
        subst h
        rcases List.mem_append.1 hs with hmem | hmem
        · exact hinv s hmem
        · simp only [List.mem_singleton] at hmem
          subst hmem
          exact hne
  | cons line rest ih =>
    intro n gvars sections cur cfg hinv h s hs
    simp only [parse_sections_go] at h
    split at h
    · exact ih _ _ _ _ _ hinv h s hs
    · split at h
      · rename_i rawName
        split at h
        · rename_i s0
          split at h
          · exact absurd h (by simp)
          · rename_i hne
            refine ih _ _ _ _ _ ?_ h s hs
            intro s1 hs1
            rcases List.mem_append.1 hs1 with hm | hm
            · exact hinv s1 hm
            · simp only [List.mem_singleton] at hm
              subst hm
              exact hne
        · exact ih _ _ _ _ _ hinv h s hs
      · split at h
        · split at h
          · exact absurd h (by simp)
          · split at h
            · exact absurd h (by simp)
            · exact ih _ _ _ _ _ hinv h s hs
        · split at h
          · split at h
            · exact absurd h (by simp)
            · exact ih _ _ _ _ _ hinv h s hs
          · split at h
            · split at h
              · exact absurd h (by simp)
              · split at h
                · exact ih _ _ _ _ _ hinv h s hs
                · exact ih _ _ _ _ _ hinv h s hs
            · exact absurd h (by simp)

/-- C9 counterexample: a section block with TWO `filter:` declarations is
accepted by `parse_sections` (the second declaration overwrites the first),
so acceptance does not require exactly one filter declaration. -/
theorem parse_sections_accepts_second_filter :
    parse_sections wParse "[S]\nfilter: True\nfilter: False"
        = .ok { global_variables := [],
                sections := [{ name := "S", filter_expr := "False",
                               filter_ast := some (.boolLit true), vars := [],
                               description := none, line_number := 1 }] }
    ∧ (splitLines "[S]\nfilter: True\nfilter: False".data).countP
        (fun l => (filterDeclMatch (pyStrip l)).isSome) = 2 :=
  ⟨rfl, rfl⟩

/-- C9 (amended): `parse_sections` accepts a section block only if it
contains at least one `filter:` declaration — not exactly one, since a
second `filter:` line in the same block is accepted and overwrites the
first.  Conjuncts: (1) every section of a successfully parsed config has a
nonempty filter expression; (2) for every input text, a `[Section]` block —
after any prefix of lines whatsoever — none of whose lines up to the next
section header or the end of input is a `filter:` declaration makes
`parse_sections` raise a `SectionParseError`; (3) from every parser state,
when such a filterless block's lines are comments, blanks, descriptions or
accepted variable declarations, the error raised at the block's end is
precisely the one identifying that section by name and header line number
(with other malformed content the error may instead be an earlier one);
(4) from every parser state with no current section — that is, before any
section header — a `filter:` line raises the filter-outside-a-section
error at that line. -/
theorem parse_sections_filter_discipline
    (pe : String → Except ExprLang.ExprError ExprLang.Expr) :
    (∀ (text : String) (cfg : SectionConfig),
        parse_sections pe text = .ok cfg →
        ∀ s ∈ cfg.sections, s.filter_expr ≠ "")
    ∧ (∀ (text : String) (pre : List (List Char)) (hdr : List Char)
         (body tail : List (List Char)) (name : List Char),
        splitLines text.data = pre ++ hdr :: (body ++ tail) →
        sectionHeaderMatch hdr = some name →
        (∀ l ∈ body, sectionHeaderMatch l = none ∧
          filterDeclMatch (pyStrip l) = none) →
        (tail = [] ∨ ∃ h2 t2 nm2, tail = h2 :: t2 ∧
          sectionHeaderMatch h2 = some nm2) →
        ∃ e, parse_sections pe text = .error e)
    ∧ (∀ (body tail : List (List Char)) (n : ℕ)
         (gvars : List (String × String)) (sections : List Section)
         (s : Section),
        s.filter_expr = "" →
        (∀ l ∈ body, keepsFilterlessBlock pe l = true) →
        (tail = [] ∨ ∃ h2 t2 nm2, tail = h2 :: t2 ∧
          sectionHeaderMatch h2 = some nm2) →
        parse_sections_go pe (body ++ tail) n gvars sections (some s)
          = .error ⟨"Section [" ++ s.name ++ "] has no filter",
              s.line_number, ""⟩)
    ∧ (∀ (line : List Char) (rest : List (List Char)) (n : ℕ)
         (gvars : List (String × String)) (sections : List Section)
         (f : List Char),
        filterDeclMatch (pyStrip line) = some f →
        parse_sections_go pe (line :: rest) n gvars sections none
          = .error ⟨"filter: found outside of a section", n,
              line.asString⟩) := by
  refine ⟨?_, ?_, ?_, ?_⟩
  · intro text cfg h s hs
    exact go_sections_valid pe (splitLines text.data) 1 [] [] none cfg
      (by simp) h s hs
  · intro text pre hdr body tail name hsplit hhdr hbody htail
    unfold parse_sections
    rw [hsplit]
    exact go_prefix_filterless pe pre hdr body tail name 1 [] [] none
      hhdr hbody htail
  · intro body tail n gvars sections s hf hkeep htail
    exact go_filterless_block pe body tail n gvars sections s hf hkeep htail
  · intro line rest n gvars sections f hflt
    obtain ⟨hcom, hbl, hhdr0⟩ := filter_line_facts line f hflt
    simp only [parse_sections_go]
    rw [if_neg (by simp [hcom, hbl])]
    simp only [hhdr0, hflt]

/-- Witness for C9 at concrete inputs: the `[A]` block of
`"[A]\nx = 1\n[B]\ny = 2"` raises the error identifying section A even
though another section follows; `"[A]\n???"` (malformed block content)
still errors; and a leading `filter:` line raises the outside-a-section
error — each instance obtained from the theorem, with the two
`parse_sections`-level runs also checked end to end. -/
theorem parse_sections_filter_discipline_witness :
    splitLines "[A]\n???".data = [] ++ "[A]".data :: (["???".data] ++ [])
    ∧ sectionHeaderMatch "[A]".data = some "A".data
    ∧ (∀ l ∈ [("???".data)], sectionHeaderMatch l = none ∧
        filterDeclMatch (pyStrip l) = none)
    ∧ (∃ e, parse_sections wParse "[A]\n???" = .error e)
    ∧ (⟨"A", "", none, [], none, 1⟩ : Section).filter_expr = ""
    ∧ (∀ l ∈ ["x = 1".data], keepsFilterlessBlock wParse l = true)
    ∧ sectionHeaderMatch "[B]".data = some "B".data
    ∧ parse_sections_go wParse (["x = 1".data] ++ ["[B]".data, "y = 2".data])
        2 [] [] (some ⟨"A", "", none, [], none, 1⟩)
        = .error ⟨"Section [A] has no filter", 1, ""⟩
    ∧ parse_sections wParse "[A]\nx = 1\n[B]\ny = 2"
        = .error ⟨"Section [A] has no filter", 1, ""⟩
    ∧ filterDeclMatch (pyStrip "filter: True".data) = some "True".data
    ∧ parse_sections_go wParse ["filter: True".data] 1 [] [] none
        = .error ⟨"filter: found outside of a section", 1,
            "filter: True".data.asString⟩
    ∧ parse_sections wParse "filter: True"
        = .error ⟨"filter: found outside of a section", 1, "filter: True"⟩ :=
  ⟨by decide, by decide, by decide,
    (parse_sections_filter_discipline wParse).2.1 "[A]\n???" [] "[A]".data
      ["???".data] [] "A".data (by decide) (by decide) (by decide) (Or.inl rfl),
    rfl, by decide, by decide,
    (parse_sections_filter_discipline wParse).2.2.1 ["x = 1".data]
      ["[B]".data, "y = 2".data] 2 [] [] ⟨"A", "", none, [], none, 1⟩ rfl
      (by decide) (Or.inr ⟨"[B]".data, ["y = 2".data], "B".data, rfl, by decide⟩),
    rfl,
    by decide,
    (parse_sections_filter_discipline wParse).2.2.2 "filter: True".data [] 1
      [] [] "True".data (by decide),
    rfl⟩

end SectionEngine

end Tally
